import Mathlib

/-!
# Verification of the smart-kitchen backend's access guard and reminder logic

Shallow embedding of the pieces of the codesclown/smart-kitchen-backend
repository that its specification makes claims about:

* the membership/role access guard (`requireHouseholdAccess`,
  `requireKitchenAccess` in `src/graphql/context.ts`);
* the periodic reminder sweep job (`ReminderJobProcessor` in
  `src/jobs/reminderJobs.ts`): `processExpiredItems`,
  `processLowStockItems`, `processScheduledReminders` and the
  `calculateNextSchedule` helper;
* the `generateSmartReminders` GraphQL mutation
  (`src/graphql/resolvers/reminder.ts`), which contains the
  lookup-before-insert reminder generation passes;
* the inventory-deducting part of the `createUsageLog` mutation
  (`src/graphql/resolvers/usage.ts`).

Numeric quantities are `Float` in the source and are modelled as `Rat`.
JavaScript `Date` values are modelled as a proleptic-Gregorian calendar
date (year ≥ 0, zero-based month as in JS) together with a
milliseconds-of-day payload; the `setDate`/`setMonth`/`setFullYear`
mutations used by `calculateNextSchedule` are modelled with JS overflow
normalisation (out-of-range day counts roll into following months).
-/

/- Batteries marks the `Rat` arithmetic operations `@[irreducible]`,
which blocks `decide`-style evaluation of the concrete stores below;
quantities in the source are plain floating-point numbers, modelled
exactly as rationals, so we restore reducibility locally. -/
attribute [local semireducible] Rat.add Rat.mul Rat.sub Rat.inv

namespace SmartKitchen

/-! ## Roles and the access guard (src/graphql/context.ts) -/

inductive Role where
  | VIEWER | MEMBER | ADMIN | OWNER
deriving DecidableEq, Repr

/-- `const roleHierarchy: Record<string, number> = { VIEWER: 0, MEMBER: 1, ADMIN: 2, OWNER: 3 }` -/
def roleHierarchy : Role → Nat
  | .VIEWER => 0
  | .MEMBER => 1
  | .ADMIN => 2
  | .OWNER => 3

/-- A `householdMember` row: ties a user to a household with a role. -/
structure Membership where
  userId : String
  householdId : String
  role : Role
deriving DecidableEq, Repr

structure User where
  id : String
  email : String
deriving DecidableEq, Repr

structure Kitchen where
  id : String
  householdId : String
  name : String
deriving DecidableEq, Repr

structure Household where
  id : String
deriving DecidableEq, Repr

/-- The three error shapes the guard code can throw
(`AuthErrors.unauthorized`, `ResourceErrors.permissionDenied`,
`ResourceErrors.resourceNotFound` in `src/utils/errors.ts`). -/
inductive AccessError where
  | Unauthorized
  | PermissionDenied (action : String)
  | ResourceNotFound (resource : String)
deriving DecidableEq, Repr

/-! ## Inventory / reminder data model (prisma schema, graphql schema) -/

inductive BatchStatus where
  | ACTIVE | USED | EXPIRED | WASTED
deriving DecidableEq, Repr

inductive ReminderType where
  | LOW_STOCK | EXPIRY | SHOPPING | FESTIVAL | APPLIANCE | GAS_CYLINDER | WATER_CAN | CUSTOM
deriving DecidableEq, Repr

inductive UsageLogType where
  | COOKED | CONSUMED | WASTED | PURCHASED | ADJUSTED
deriving DecidableEq, Repr

/-! ### JavaScript dates

`DateJS` is a calendar date (proleptic Gregorian, zero-based month as
returned by `Date.prototype.getMonth`) plus the milliseconds elapsed
within the day (`tod`).  Time zone offsets and DST are not modelled
(the model behaves like UTC). -/

structure DateJS where
  year : Nat
  month : Nat
  day : Nat
  tod : Nat
deriving DecidableEq, Repr

def isLeap (y : Nat) : Bool :=
  y % 4 == 0 && (y % 100 != 0 || y % 400 == 0)

def daysInMonth (y m : Nat) : Nat :=
  match m with
  | 0 => 31
  | 1 => if isLeap y then 29 else 28
  | 2 => 31
  | 3 => 30
  | 4 => 31
  | 5 => 30
  | 6 => 31
  | 7 => 31
  | 8 => 30
  | 9 => 31
  | 10 => 30
  | _ => 31

/-- Cumulative days before (zero-based) month `m` in year `y`. -/
def daysBeforeMonth (y m : Nat) : Nat :=
  match m with
  | 0 => 0
  | 1 => 31
  | 2 => 59 + (if isLeap y then 1 else 0)
  | 3 => 90 + (if isLeap y then 1 else 0)
  | 4 => 120 + (if isLeap y then 1 else 0)
  | 5 => 151 + (if isLeap y then 1 else 0)
  | 6 => 181 + (if isLeap y then 1 else 0)
  | 7 => 212 + (if isLeap y then 1 else 0)
  | 8 => 243 + (if isLeap y then 1 else 0)
  | 9 => 273 + (if isLeap y then 1 else 0)
  | 10 => 304 + (if isLeap y then 1 else 0)
  | _ => 334 + (if isLeap y then 1 else 0)

/-- Leap years strictly before year `y` (year 0 counts as leap). -/
def leapCount (y : Nat) : Nat :=
  (y + 3) / 4 - (y + 99) / 100 + (y + 399) / 400

/-- Day number of the first day of month `m` of year `y`, counting from
0000-01-01 = day 0. The `day` component may exceed the month's length;
`toDaysV y m d` is the day number that JS date normalisation assigns to
the (possibly denormalised) triple. -/
def toDaysV (y m d : Nat) : Nat :=
  365 * y + leapCount y + daysBeforeMonth y m + d - 1

/-- Day number of a calendar date, counting from 0000-01-01 = day 0. -/
def toDays (dt : DateJS) : Nat := toDaysV dt.year dt.month dt.day

/-- Milliseconds since 0000-01-01T00:00. `Date.getTime()` differs from
this by a fixed offset (the epoch shift to 1970), which cancels in every
comparison and difference the code performs. -/
def toMs (dt : DateJS) : Nat := toDays dt * 86400000 + dt.tod

/-- JS date normalisation: roll an out-of-range day-of-month forward
into the following months.  `fuel` bounds the recursion; `normDay`
supplies `fuel = d`, which suffices because every step strictly
decreases `d`. Month `m` is kept in `[0, 12)`. -/
def normDayAux : Nat → Nat → Nat → Nat → Nat → DateJS
  | 0, y, m, d, tod => ⟨y, m, d, tod⟩
  | fuel + 1, y, m, d, tod =>
    if d ≤ daysInMonth y m then ⟨y, m, d, tod⟩
    else if m = 11 then normDayAux fuel (y + 1) 0 (d - 31) tod
    else normDayAux fuel y (m + 1) (d - daysInMonth y m) tod

def normDay (y m d tod : Nat) : DateJS := normDayAux d y m d tod

/-- `next.setDate(v)` on a date whose month is canonical. -/
def jsSetDate (dt : DateJS) (v : Nat) : DateJS :=
  normDay dt.year dt.month v dt.tod

/-- `next.setMonth(v)`: months overflow into years, then the (unchanged)
day-of-month is renormalised against the new month. -/
def jsSetMonth (dt : DateJS) (v : Nat) : DateJS :=
  normDay (dt.year + v / 12) (v % 12) dt.day dt.tod

/-- `next.setFullYear(v)`: the day-of-month is renormalised against the
same month of the new year (Feb 29 → Mar 1 in a non-leap year). -/
def jsSetFullYear (dt : DateJS) (v : Nat) : DateJS :=
  normDay v dt.month dt.day dt.tod

/-- A canonical JS date: month in range and day within the month. -/
def ValidDate (dt : DateJS) : Prop :=
  dt.month < 12 ∧ 1 ≤ dt.day ∧ dt.day ≤ daysInMonth dt.year dt.month

instance (dt : DateJS) : Decidable (ValidDate dt) := by
  unfold ValidDate; infer_instance

/-! ## The store

One structure stands for the relational store the code reads and writes
through prisma.  `Reminder.meta` carries (among other payload values the
claims do not touch) the triggering entity's id: `metaItemId` and/or
`metaBatchId`. -/

structure InventoryItem where
  id : String
  kitchenId : String
  name : String
  threshold : Option Rat
deriving DecidableEq, Repr

structure InventoryBatch where
  id : String
  itemId : String
  quantity : Rat
  expiryDate : Option DateJS
  status : BatchStatus
deriving DecidableEq, Repr

structure UsageLog where
  kitchenId : String
  itemId : String
  type : UsageLogType
  quantity : Rat
  date : DateJS
deriving DecidableEq, Repr

structure Reminder where
  id : String
  kitchenId : String
  type : ReminderType
  scheduledAt : DateJS
  isRecurring : Bool
  frequency : Option String
  isCompleted : Bool
  metaItemId : Option String
  metaBatchId : Option String
  createdAt : DateJS
deriving DecidableEq, Repr

structure Store where
  households : List Household
  memberships : List Membership
  kitchens : List Kitchen
  items : List InventoryItem
  batches : List InventoryBatch
  usageLogs : List UsageLog
  reminders : List Reminder
deriving DecidableEq, Repr

/-! ## Access guard (`src/graphql/context.ts`) -/

/-- `requireAuth`: throws `AuthErrors.unauthorized()` when the context
carries no user. -/
def requireAuth (user : Option User) : Except AccessError User :=
  match user with
  | none => .error .Unauthorized
  | some u => .ok u

/-- `requireHouseholdAccess(context, householdId, minRole)`: looks up the
caller's membership row for the household and compares roles.  Note the
household table itself is never consulted. -/
def requireHouseholdAccess (s : Store) (user : Option User) (householdId : String)
    (minRole : Role) : Except AccessError Membership :=
  match requireAuth user with
  | .error e => .error e
  | .ok u =>
    match s.memberships.find? (fun m => m.userId == u.id && m.householdId == householdId) with
    | none => .error (.PermissionDenied "household access")
    | some membership =>
      if roleHierarchy membership.role < roleHierarchy minRole then
        .error (.PermissionDenied "role access")
      else
        .ok membership

/-- `requireKitchenAccess(context, kitchenId, minRole)`: resolves the
kitchen to its owning household (404 when absent), then delegates. -/
def requireKitchenAccess (s : Store) (user : Option User) (kitchenId : String)
    (minRole : Role) : Except AccessError Membership :=
  match s.kitchens.find? (fun k => k.id == kitchenId) with
  | none => .error (.ResourceNotFound "Kitchen")
  | some kitchen => requireHouseholdAccess s user kitchen.householdId minRole

/-! ## Periodic sweep job (`src/jobs/reminderJobs.ts`) -/

/-- Append a freshly created reminder row (`prisma.reminder.create`);
`isCompleted` and `isRecurring` take their schema defaults (`false`),
`frequency` its default (`null`). -/
def Store.addReminder (s : Store) (r : Reminder) : Store :=
  { s with reminders := s.reminders ++ [r] }

/-- Household members of the household owning kitchen `k`
(the nested `include: { household: { include: { members ... } } }`). -/
def Store.membersOf (s : Store) (householdId : String) : List Membership :=
  s.memberships.filter (fun m => m.householdId == householdId)

def Store.findItem (s : Store) (itemId : String) : Option InventoryItem :=
  s.items.find? (fun i => i.id == itemId)

def Store.findKitchen (s : Store) (kitchenId : String) : Option Kitchen :=
  s.kitchens.find? (fun k => k.id == kitchenId)

def Store.findHousehold (s : Store) (householdId : String) : Option Household :=
  s.households.find? (fun h => h.id == householdId)

/-- The `where` filter of `processExpiredItems`: ACTIVE batches with
`expiryDate` between `now` and `now + 24h` (a row with `expiryDate: null`
never matches a range filter). -/
def expiringWithin24h (now : DateJS) (b : InventoryBatch) : Bool :=
  b.status == .ACTIVE &&
    match b.expiryDate with
    | none => false
    | some e => toMs e ≤ toMs now + 24 * 60 * 60 * 1000 && toMs now ≤ toMs e

/-- The reminder row `processExpiredItems` creates (title, description
and the non-id meta payload carry no information the claims touch). -/
def expiryReminder (now : DateJS) (kitchenId itemId batchId : String) : Reminder :=
  { id := ""
    kitchenId := kitchenId
    type := .EXPIRY
    scheduledAt := now
    isRecurring := false
    frequency := none
    isCompleted := false
    metaItemId := some itemId
    metaBatchId := some batchId
    createdAt := now }

/-- Loop body of `processExpiredItems`: resolve the batch's item,
kitchen and household, then create one EXPIRY reminder per household
member (notification dispatch is a side effect outside the store and is
not modelled).  When an `include`d relation row is missing the batch
contributes nothing. -/
def processExpiredBatch (now : DateJS) (s : Store) (b : InventoryBatch) : Store :=
  match s.findItem b.itemId with
  | none => s
  | some item =>
    match s.findKitchen item.kitchenId with
    | none => s
    | some kitchen =>
      match s.findHousehold kitchen.householdId with
      | none => s
      | some household =>
        (s.membersOf household.id).foldl
          (fun s' _member =>
            s'.addReminder (expiryReminder now kitchen.id item.id b.id)) s

/-- `ReminderJobProcessor.processExpiredItems`, run at time `now`. -/
def processExpiredItems (now : DateJS) (s : Store) : Store :=
  (s.batches.filter (expiringWithin24h now)).foldl (processExpiredBatch now) s

/-- `item.threshold || 1`: JavaScript `||` replaces `null`/`undefined`
and the falsy number `0` by `1`. -/
def effectiveThreshold (t : Option Rat) : Rat :=
  match t with
  | none => 1
  | some v => if v = 0 then 1 else v

/-- Total quantity over the item's ACTIVE batches. -/
def totalActiveQuantity (s : Store) (itemId : String) : Rat :=
  ((s.batches.filter (fun b => b.itemId == itemId && b.status == .ACTIVE)).map
    (fun b => b.quantity)).sum

/-- The `findFirst` recency guard of `processLowStockItems`: any
LOW_STOCK reminder for the item in this kitchen created within the last
24 hours, complete or not. -/
def hasRecentLowStockReminder (now : DateJS) (s : Store) (kitchenId itemId : String) : Bool :=
  s.reminders.any (fun r =>
    r.kitchenId == kitchenId && r.type == .LOW_STOCK &&
      r.metaItemId == some itemId &&
      toMs now ≤ toMs r.createdAt + 24 * 60 * 60 * 1000)

/-- The reminder row `processLowStockItems` creates. -/
def lowStockReminder (now : DateJS) (kitchenId itemId : String) : Reminder :=
  { id := ""
    kitchenId := kitchenId
    type := .LOW_STOCK
    scheduledAt := now
    isRecurring := false
    frequency := none
    isCompleted := false
    metaItemId := some itemId
    metaBatchId := none
    createdAt := now }

/-- Loop body of `processLowStockItems` for one inventory item. -/
def processLowStockItem (now : DateJS) (s : Store) (item : InventoryItem) : Store :=
  let totalQuantity := totalActiveQuantity s item.id
  let threshold := effectiveThreshold item.threshold
  if totalQuantity ≤ threshold then
    match s.findKitchen item.kitchenId with
    | none => s
    | some kitchen =>
      match s.findHousehold kitchen.householdId with
      | none => s
      | some household =>
        if hasRecentLowStockReminder now s kitchen.id item.id then s
        else
          (s.membersOf household.id).foldl
            (fun s' _member =>
              s'.addReminder (lowStockReminder now kitchen.id item.id)) s
  else s

/-- `ReminderJobProcessor.processLowStockItems`, run at time `now`.
The query fetches every inventory item (no kitchen filter). -/
def processLowStockItems (now : DateJS) (s : Store) : Store :=
  s.items.foldl (processLowStockItem now) s

/-- `String.prototype.toLowerCase` on the ASCII frequency strings the
code compares against (character-wise lowering). -/
def strToLower (s : String) : String := String.mk (s.data.map Char.toLower)

/-- `calculateNextSchedule(currentSchedule, frequency)`.  JavaScript's
`if (!frequency) return null` also rejects the empty string; the
frequency is matched lower-cased. -/
def calculateNextSchedule : DateJS → Option String → Option DateJS
  | _, none => none
  | currentSchedule, some f =>
    if f = "" then none
    else if strToLower f = "daily" then some (jsSetDate currentSchedule (currentSchedule.day + 1))
    else if strToLower f = "weekly" then some (jsSetDate currentSchedule (currentSchedule.day + 7))
    else if strToLower f = "monthly" then some (jsSetMonth currentSchedule (currentSchedule.month + 1))
    else if strToLower f = "yearly" then some (jsSetFullYear currentSchedule (currentSchedule.year + 1))
    else none

/-- The per-reminder update of `processScheduledReminders`: one-shot
reminders are marked completed; recurring ones move to their next
occurrence when `calculateNextSchedule` yields one and are otherwise
left untouched. -/
def fireReminder (r : Reminder) : Reminder :=
  if !r.isRecurring then { r with isCompleted := true }
  else
    match calculateNextSchedule r.scheduledAt r.frequency with
    | some nextSchedule => { r with scheduledAt := nextSchedule }
    | none => r

/-- `prisma.reminder.update({ where: { id }, ... })` modelled as an
in-place rewrite of the rows carrying that id. -/
def Store.updateReminder (s : Store) (id : String) (f : Reminder → Reminder) : Store :=
  { s with reminders := s.reminders.map (fun r => if r.id == id then f r else r) }

/-- The `where` filter of `processScheduledReminders`: due and not
completed. -/
def isDue (now : DateJS) (r : Reminder) : Bool :=
  toMs r.scheduledAt ≤ toMs now && !r.isCompleted

/-- `ReminderJobProcessor.processScheduledReminders`, run at time `now`:
snapshot the due reminders, then update each in turn (notification
dispatch is not modelled). -/
def processScheduledReminders (now : DateJS) (s : Store) : Store :=
  (s.reminders.filter (isDue now)).foldl
    (fun s' r => s'.updateReminder r.id (fun _ => fireReminder r)) s

/-! ## `generateSmartReminders` mutation (`src/graphql/resolvers/reminder.ts`)

Unlike the periodic job, each of this mutation's three passes performs a
lookup-before-insert on the (kitchen, type, triggering entity id,
incomplete) tuple and creates a single reminder row. -/

/-- The `findFirst` dedup guard shared by the mutation's passes: an
incomplete reminder of the given type whose meta itemId matches. -/
def hasIncompleteItemReminder (s : Store) (kitchenId : String) (ty : ReminderType)
    (itemId : String) : Bool :=
  s.reminders.any (fun r =>
    r.kitchenId == kitchenId && r.type == ty && r.metaItemId == some itemId &&
      r.isCompleted == false)

/-- Dedup guard of the mutation's expiry pass (meta path `batchId`). -/
def hasIncompleteBatchReminder (s : Store) (kitchenId : String) (ty : ReminderType)
    (batchId : String) : Bool :=
  s.reminders.any (fun r =>
    r.kitchenId == kitchenId && r.type == ty && r.metaBatchId == some batchId &&
      r.isCompleted == false)

/-- Low-stock pass body: `totalQuantity <= (item.threshold || 0) &&
totalQuantity > 0`, then lookup-before-insert. -/
def smartLowStockItem (now : DateJS) (kitchenId : String) (s : Store)
    (item : InventoryItem) : Store :=
  let totalQuantity := totalActiveQuantity s item.id
  if totalQuantity ≤ item.threshold.getD 0 && totalQuantity > 0 then
    if hasIncompleteItemReminder s kitchenId .LOW_STOCK item.id then s
    else
      s.addReminder
        { id := ""
          kitchenId := kitchenId
          type := .LOW_STOCK
          scheduledAt := now
          isRecurring := false
          frequency := none
          isCompleted := false
          metaItemId := some item.id
          metaBatchId := none
          createdAt := now }
  else s

/-- Low-stock pass of `generateSmartReminders`: all items of the
kitchen. -/
def smartLowStockPass (now : DateJS) (kitchenId : String) (s : Store) : Store :=
  (s.items.filter (fun i => i.kitchenId == kitchenId)).foldl
    (smartLowStockItem now kitchenId) s

/-- The expiry window of the mutation: `threeDaysFromNow.setDate(getDate() + 3)`. -/
def smartExpiryWindow (now : DateJS) (b : InventoryBatch) : Bool :=
  match b.expiryDate with
  | none => false
  | some e => toMs e ≤ toMs (jsSetDate now (now.day + 3)) && toMs now ≤ toMs e

/-- Expiry pass body: lookup-before-insert keyed on the batch id. -/
def smartExpiryBatch (now : DateJS) (kitchenId : String) (s : Store)
    (b : InventoryBatch) : Store :=
  if hasIncompleteBatchReminder s kitchenId .EXPIRY b.id then s
  else
    s.addReminder
      { id := ""
        kitchenId := kitchenId
        type := .EXPIRY
        scheduledAt := now
        isRecurring := false
        frequency := none
        isCompleted := false
        metaItemId := some b.itemId
        metaBatchId := some b.id
        createdAt := now }

/-- Expiry pass of `generateSmartReminders`: ACTIVE batches of the
kitchen's items expiring within the next three days. -/
def smartExpiryPass (now : DateJS) (kitchenId : String) (s : Store) : Store :=
  (s.batches.filter (fun b =>
      (match s.findItem b.itemId with
        | some i => i.kitchenId == kitchenId
        | none => false) &&
      b.status == .ACTIVE && smartExpiryWindow now b)).foldl
    (smartExpiryBatch now kitchenId) s

/-- Consumption-pattern accumulation (`consumptionPatterns[itemId].totalUsed += quantity`):
an association list in first-appearance order, mirroring JS object key
insertion order. -/
def bumpPattern (acc : List (String × Rat)) (k : String) (q : Rat) : List (String × Rat) :=
  match acc with
  | [] => [(k, q)]
  | (k', v) :: rest => if k' = k then (k', v + q) :: rest else (k', v) :: bumpPattern rest k q

/-- `consumptionPatterns` built from the kitchen's usage logs of the
trailing 30 days; only CONSUMED and COOKED entries count. -/
def consumptionPatterns (now : DateJS) (kitchenId : String) (s : Store) :
    List (String × Rat) :=
  (s.usageLogs.filter (fun l =>
      l.kitchenId == kitchenId &&
        toMs now ≤ toMs l.date + 30 * 24 * 60 * 60 * 1000)).foldl
    (fun acc l =>
      if l.type == .CONSUMED || l.type == .COOKED then bumpPattern acc l.itemId l.quantity
      else acc) []

/-- The reminder row the shopping pass creates. -/
def shoppingReminder (now : DateJS) (kitchenId itemId : String) : Reminder :=
  { id := ""
    kitchenId := kitchenId
    type := .SHOPPING
    scheduledAt := now
    isRecurring := false
    frequency := none
    isCompleted := false
    metaItemId := some itemId
    metaBatchId := none
    createdAt := now }

/-- Shopping pass body for one `(itemId, totalUsed)` pattern:
`avgDaily = totalUsed / 30`; `daysRemaining = Math.floor(currentQuantity / avgDaily)`;
remind when `0 < daysRemaining ≤ 7`, with lookup-before-insert. -/
def smartShoppingPattern (now : DateJS) (kitchenId : String) (s : Store)
    (pat : String × Rat) : Store :=
  let avgDaily := pat.2 / 30
  if avgDaily > 0 then
    match s.findItem pat.1 with
    | none => s
    | some item =>
      let currentQuantity := totalActiveQuantity s item.id
      let daysRemaining := ⌊currentQuantity / avgDaily⌋
      if daysRemaining ≤ 7 && daysRemaining > 0 then
        if hasIncompleteItemReminder s kitchenId .SHOPPING item.id then s
        else s.addReminder (shoppingReminder now kitchenId item.id)
      else s
  else s

/-- Shopping (usage-prediction) pass of `generateSmartReminders`. -/
def smartShoppingPass (now : DateJS) (kitchenId : String) (s : Store) : Store :=
  (consumptionPatterns now kitchenId s).foldl (smartShoppingPattern now kitchenId) s

/-- The whole `generateSmartReminders` mutation body: low stock, then
expiring batches, then usage-based predictions. -/
def generateSmartReminders (now : DateJS) (kitchenId : String) (s : Store) : Store :=
  smartShoppingPass now kitchenId
    (smartExpiryPass now kitchenId
      (smartLowStockPass now kitchenId s))

/-! ## `createUsageLog` mutation (`src/graphql/resolvers/usage.ts`) -/

/-- Sort key of `orderBy: { expiryDate: 'asc' }`; rows with a null
expiry date sort last (Postgres ascending default). -/
def fifoKey (b : InventoryBatch) : Nat × Nat :=
  match b.expiryDate with
  | some e => (0, toMs e)
  | none => (1, 0)

def keyLt (a b : Nat × Nat) : Bool :=
  a.1 < b.1 || (a.1 == b.1 && a.2 < b.2)

/-- `findFirst` under an ascending order: the earliest-keyed row,
earliest stored row on ties. -/
def pickMinByKey (l : List InventoryBatch) : Option InventoryBatch :=
  l.foldl
    (fun best b =>
      match best with
      | none => some b
      | some cur => if keyLt (fifoKey b) (fifoKey cur) then some b else some cur)
    none

/-- The FIFO batch `createUsageLog` deducts from: oldest ACTIVE batch of
the item that still has quantity. -/
def findFifoBatch (s : Store) (itemId : String) : Option InventoryBatch :=
  pickMinByKey (s.batches.filter (fun b =>
    b.itemId == itemId && b.status == .ACTIVE && b.quantity > 0))

/-- The batch update applied by a consumption-type usage log:
`newQuantity = Math.max(0, batch.quantity - quantity)` and
`status: newQuantity === 0 ? 'USED' : 'ACTIVE'`. -/
def consumeFromBatch (b : InventoryBatch) (qty : Rat) : InventoryBatch :=
  let newQuantity := max 0 (b.quantity - qty)
  { b with quantity := newQuantity,
           status := if newQuantity = 0 then .USED else .ACTIVE }

def Store.updateBatch (s : Store) (id : String) (f : InventoryBatch → InventoryBatch) : Store :=
  { s with batches := s.batches.map (fun b => if b.id == id then f b else b) }

def Store.addUsageLog (s : Store) (l : UsageLog) : Store :=
  { s with usageLogs := s.usageLogs ++ [l] }

def Store.addBatch (s : Store) (b : InventoryBatch) : Store :=
  { s with batches := s.batches ++ [b] }

def isConsumptionType (ty : UsageLogType) : Bool :=
  ty == .CONSUMED || ty == .WASTED || ty == .COOKED

/-- `createUsageLog` mutation: kitchen access at MEMBER, item-in-kitchen
check, log creation, then the inventory side effect (FIFO deduction for
consumption types, a fresh ACTIVE batch for purchases).  Every `throw`
of the source collapses to `none`. -/
def createUsageLog (s : Store) (user : Option User) (kitchenId itemId : String)
    (ty : UsageLogType) (qty : Rat) (date : DateJS) : Option Store :=
  match requireKitchenAccess s user kitchenId .MEMBER with
  | .error _ => none
  | .ok _ =>
    match s.items.find? (fun i => i.id == itemId && i.kitchenId == kitchenId) with
    | none => none
    | some _item =>
      let s₁ := s.addUsageLog
        { kitchenId := kitchenId, itemId := itemId, type := ty, quantity := qty, date := date }
      if isConsumptionType ty then
        match findFifoBatch s₁ itemId with
        | none => some s₁
        | some batch => some (s₁.updateBatch batch.id (fun b => consumeFromBatch b qty))
      else if ty == .PURCHASED then
        some (s₁.addBatch
          { id := "", itemId := itemId, quantity := qty, expiryDate := none, status := .ACTIVE })
      else some s₁

/-! ## Calendar arithmetic lemmas -/

lemma one_le_daysInMonth (y m : Nat) : 1 ≤ daysInMonth y m := by
  unfold daysInMonth
  split <;> try omega
  split <;> omega

lemma isLeap_iff (y : Nat) :
    isLeap y = true ↔ (y % 4 = 0 ∧ (y % 100 ≠ 0 ∨ y % 400 = 0)) := by
  simp [isLeap]

set_option maxHeartbeats 1000000 in
lemma leapCount_succ (y : Nat) :
    leapCount (y + 1) = leapCount y + (if isLeap y then 1 else 0) := by
  by_cases h : isLeap y = true
  · rw [if_pos h]
    rw [isLeap_iff] at h
    unfold leapCount
    omega
  · rw [if_neg h]
    rw [isLeap_iff] at h
    unfold leapCount
    omega

lemma daysBeforeMonth_succ (y m : Nat) (hm : m < 11) :
    daysBeforeMonth y (m + 1) = daysBeforeMonth y m + daysInMonth y m := by
  interval_cases m <;> cases h : isLeap y <;>
    simp [daysBeforeMonth, daysInMonth, h]

lemma toDays_normDayAux (fuel : Nat) : ∀ y m d tod, m < 12 → 1 ≤ d → d ≤ fuel →
    toDays (normDayAux fuel y m d tod) = toDaysV y m d := by
  induction fuel with
  | zero => intro y m d tod _ hd hdf; omega
  | succ f ih =>
    intro y m d tod hm hd hdf
    unfold normDayAux
    split
    · rfl
    · rename_i hgt
      push_neg at hgt
      have hpos := one_le_daysInMonth y m
      split
      · rename_i hm11
        subst hm11
        have h31 : daysInMonth y 11 = 31 := rfl
        rw [ih (y + 1) 0 (d - 31) tod (by omega) (by omega) (by omega)]
        unfold toDaysV
        rw [leapCount_succ]
        have hb0 : daysBeforeMonth (y + 1) 0 = 0 := rfl
        have hb11 : daysBeforeMonth y 11 = 334 + (if isLeap y then 1 else 0) := rfl
        rw [hb0, hb11]
        cases hL : isLeap y <;> simp [hL] <;> omega
      · rename_i hm11
        have hms : m < 11 := by omega
        rw [ih y (m + 1) (d - daysInMonth y m) tod (by omega) (by omega) (by omega)]
        unfold toDaysV
        rw [daysBeforeMonth_succ y m hms]
        omega

lemma tod_normDayAux (fuel : Nat) : ∀ y m d tod, (normDayAux fuel y m d tod).tod = tod := by
  induction fuel with
  | zero => intro y m d tod; rfl
  | succ f ih =>
    intro y m d tod
    unfold normDayAux
    split
    · rfl
    · split
      · exact ih _ _ _ _
      · exact ih _ _ _ _

lemma toDays_normDay (y m d tod : Nat) (hm : m < 12) (hd : 1 ≤ d) :
    toDays (normDay y m d tod) = toDaysV y m d :=
  toDays_normDayAux d y m d tod hm hd le_rfl

lemma tod_normDay (y m d tod : Nat) : (normDay y m d tod).tod = tod :=
  tod_normDayAux d y m d tod

lemma normDay_eq_self (y m d tod : Nat) (h : d ≤ daysInMonth y m) :
    normDay y m d tod = ⟨y, m, d, tod⟩ := by
  cases d with
  | zero => rfl
  | succ d' =>
    unfold normDay normDayAux
    rw [if_pos h]

lemma toDaysV_add (y m d k : Nat) (hd : 1 ≤ d) :
    toDaysV y m (d + k) = toDaysV y m d + k := by
  unfold toDaysV
  omega

/-- `setDate(getDate() + k)` on a canonical date advances the day count
by exactly `k` and keeps the time of day. -/
lemma jsSetDate_addDays (dt : DateJS) (k : Nat) (hv : ValidDate dt) :
    toDays (jsSetDate dt (dt.day + k)) = toDays dt + k ∧
      (jsSetDate dt (dt.day + k)).tod = dt.tod := by
  obtain ⟨hm, hd1, _⟩ := hv
  refine ⟨?_, tod_normDay _ _ _ _⟩
  rw [jsSetDate, toDays_normDay _ _ _ _ hm (by omega), toDaysV_add _ _ _ _ hd1]
  rfl

lemma toMs_jsSetDate_addDays (dt : DateJS) (k : Nat) (hv : ValidDate dt) :
    toMs (jsSetDate dt (dt.day + k)) = toMs dt + k * 86400000 := by
  obtain ⟨h1, h2⟩ := jsSetDate_addDays dt k hv
  rw [toMs, toMs, h1, h2]
  ring

/-- `setMonth(getMonth() + 1)` advances the month index by one and keeps
the day when the day exists in the target month. -/
lemma jsSetMonth_fit (dt : DateJS) (v : Nat)
    (h : dt.day ≤ daysInMonth (dt.year + v / 12) (v % 12)) :
    jsSetMonth dt v = ⟨dt.year + v / 12, v % 12, dt.day, dt.tod⟩ :=
  normDay_eq_self _ _ _ _ h

lemma jsSetFullYear_fit (dt : DateJS) (v : Nat)
    (h : dt.day ≤ daysInMonth v dt.month) :
    jsSetFullYear dt v = ⟨v, dt.month, dt.day, dt.tod⟩ :=
  normDay_eq_self _ _ _ _ h

/-! ## Counting incomplete reminders per (kitchen, type, entity) tuple -/

/-- Incomplete reminders for a (kitchen, type, item) tuple (meta path
`itemId`). -/
def incompleteItemTupleCount (s : Store) (kid : String) (ty : ReminderType)
    (itemId : String) : Nat :=
  (s.reminders.filter (fun r =>
    r.kitchenId == kid && r.type == ty && r.metaItemId == some itemId &&
      r.isCompleted == false)).length

/-- Incomplete reminders for a (kitchen, type, batch) tuple (meta path
`batchId`). -/
def incompleteBatchTupleCount (s : Store) (kid : String) (ty : ReminderType)
    (batchId : String) : Nat :=
  (s.reminders.filter (fun r =>
    r.kitchenId == kid && r.type == ty && r.metaBatchId == some batchId &&
      r.isCompleted == false)).length

/-- One full cycle of the scheduler's three sweep passes
(`JobScheduler.start` wires exactly these three processors). -/
def runSweep (now : DateJS) (s : Store) : Store :=
  processScheduledReminders now (processLowStockItems now (processExpiredItems now s))

/-! ## Concrete fixtures used by counterexamples and witnesses -/

def hhA : Household := ⟨"h1"⟩
def kitA : Kitchen := ⟨"k1", "h1", "Main Kitchen"⟩
def userA : User := ⟨"u1", "a@example.com"⟩
def memA : Membership := ⟨"u1", "h1", .MEMBER⟩

/-- 2024-01-10T00:00. -/
def now0 : DateJS := ⟨2024, 0, 10, 0⟩

def itemA : InventoryItem := ⟨"i1", "k1", "Milk", some 5⟩

/-- A batch expiring twelve hours after `now0`. -/
def batchSoon : InventoryBatch := ⟨"b1", "i1", 5, some ⟨2024, 0, 10, 43200000⟩, .ACTIVE⟩

def storeC1 : Store := ⟨[hhA], [memA], [kitA], [itemA], [batchSoon], [], []⟩

/-- A batch expiring two days after `now0`. -/
def batchTwoDays : InventoryBatch := ⟨"b1", "i1", 5, some ⟨2024, 0, 12, 0⟩, .ACTIVE⟩

def storeC3 : Store := ⟨[hhA], [memA], [kitA], [itemA], [batchTwoDays], [], []⟩

/-- Ten units on hand, no expiry dates. -/
def batchTen : InventoryBatch := ⟨"b1", "i1", 10, none, .ACTIVE⟩

/-- Sixty units consumed nine days before `now0` (inside the trailing
30-day window). -/
def logSixty : UsageLog := ⟨"k1", "i1", .CONSUMED, 60, ⟨2024, 0, 1, 0⟩⟩

def storeC2 : Store := ⟨[hhA], [memA], [kitA], [itemA], [batchTen], [logSixty], []⟩

/-- An item whose ACTIVE batches sum to zero (it has none). -/
def storeC4 : Store := ⟨[hhA], [memA], [kitA], [itemA], [], [], []⟩

def emptyStore : Store := ⟨[], [], [], [], [], [], []⟩

/-! ## Claim C1 — sweep idempotency -/

/-- Claim C1 is false of the periodic sweep job: `processExpiredItems`
performs no lookup-before-insert at all, so running the sweep twice over
a store holding one expiring batch and a one-member household leaves two
incomplete EXPIRY reminders for the same (kitchen, EXPIRY, batch)
tuple. -/
theorem expiry_sweep_not_idempotent :
    incompleteBatchTupleCount
        (processExpiredItems now0 (processExpiredItems now0 storeC1))
        "k1" .EXPIRY "b1" = 2 := by decide

/-! ## Claim C5 — access-guard error taxonomy -/

/-- Claim C5 is false for households: `requireHouseholdAccess` never
consults the household table, so an authenticated call with a household
id that resolves to nothing fails with `PermissionDenied`, not
`ResourceNotFound`. -/
theorem missing_household_gives_permission_denied :
    requireHouseholdAccess emptyStore (some userA) "h1" .VIEWER
        = .error (.PermissionDenied "household access") ∧
      emptyStore.findHousehold "h1" = none := by
  constructor <;> rfl

/-- Claim C5 (amended): a kitchen id that does not resolve fails with
`ResourceNotFound`; a household id for which the caller has no
membership row fails with `PermissionDenied` whether or not the
household exists (household existence is never checked); an existing
membership whose role is strictly below the required minimum also fails
with `PermissionDenied`. -/
theorem access_guard_error_taxonomy (s : Store) (user : Option User) (u : User)
    (kid hid : String) (minRole : Role) (m : Membership) :
    (s.kitchens.find? (fun k => k.id == kid) = none →
      requireKitchenAccess s user kid minRole = .error (.ResourceNotFound "Kitchen")) ∧
    (s.memberships.find? (fun mm => mm.userId == u.id && mm.householdId == hid) = none →
      requireHouseholdAccess s (some u) hid minRole
        = .error (.PermissionDenied "household access")) ∧
    (s.memberships.find? (fun mm => mm.userId == u.id && mm.householdId == hid) = some m →
      roleHierarchy m.role < roleHierarchy minRole →
      requireHouseholdAccess s (some u) hid minRole
        = .error (.PermissionDenied "role access")) := by
  refine ⟨?_, ?_, ?_⟩
  · intro h
    unfold requireKitchenAccess
    rw [h]
  · intro h
    simp [requireHouseholdAccess, requireAuth, h]
  · intro h hr
    simp [requireHouseholdAccess, requireAuth, h, hr]

/-- Witness for the amended C5 at concrete inputs. -/
theorem access_guard_error_taxonomy_witness :
    requireKitchenAccess emptyStore (some userA) "kX" .VIEWER
        = .error (.ResourceNotFound "Kitchen") ∧
      requireHouseholdAccess emptyStore (some userA) "h1" .VIEWER
        = .error (.PermissionDenied "household access") :=
  ⟨(access_guard_error_taxonomy emptyStore (some userA) userA "kX" "h1" .VIEWER
      ⟨"u1", "h1", .MEMBER⟩).1 rfl,
   (access_guard_error_taxonomy emptyStore (some userA) userA "kX" "h1" .VIEWER
      ⟨"u1", "h1", .MEMBER⟩).2.1 rfl⟩

/-! ## Claim C6 — role monotonicity -/

/-- Claim C6: an authenticated caller whose membership role `r2` is at
least the required minimum `r1` in the VIEWER<MEMBER<ADMIN<OWNER order
passes `requireHouseholdAccess` and receives the membership record; in
particular raising the caller's role never turns a passing check into a
failing one. -/
theorem requireHouseholdAccess_role_monotone
    (s : Store) (u : User) (householdId : String) (r1 r2 : Role) (m : Membership)
    (hfind : s.memberships.find?
        (fun mm => mm.userId == u.id && mm.householdId == householdId) = some m)
    (hrole : m.role = r2)
    (hle : roleHierarchy r1 ≤ roleHierarchy r2) :
    requireHouseholdAccess s (some u) householdId r1 = .ok m := by
  have hlt : ¬(roleHierarchy m.role < roleHierarchy r1) := by
    rw [hrole]; omega
  simp [requireHouseholdAccess, requireAuth, hfind, hlt]

/-- Witness for C6: a MEMBER passes a VIEWER-level check. -/
theorem requireHouseholdAccess_role_monotone_witness :
    requireHouseholdAccess ⟨[hhA], [memA], [kitA], [], [], [], []⟩
        (some userA) "h1" .VIEWER = .ok memA :=
  requireHouseholdAccess_role_monotone _ userA "h1" .VIEWER .MEMBER memA rfl rfl
    (by decide)

/-! ## Claim C9 — consumption clamps quantity and flips status -/

/-- Claim C9: for every batch and consumption-type usage log of any
quantity, the deduction performed by `createUsageLog` clamps the batch
quantity at zero and sets status USED exactly when the new quantity is
zero, independent of the batch's expiry date; store-wide, batch
quantities stay non-negative. -/
theorem usage_log_consumption_clamped
    (b : InventoryBatch) (qty : Rat) (ty : UsageLogType) (s s' : Store)
    (user : Option User) (kid itemId : String) (date : DateJS)
    (hty : isConsumptionType ty = true)
    (hrun : createUsageLog s user kid itemId ty qty date = some s')
    (hnn : ∀ x ∈ s.batches, 0 ≤ x.quantity) :
    0 ≤ (consumeFromBatch b qty).quantity ∧
    ((consumeFromBatch b qty).status = .USED ↔ (consumeFromBatch b qty).quantity = 0) ∧
    (∀ e, consumeFromBatch { b with expiryDate := e } qty
        = { consumeFromBatch b qty with expiryDate := e }) ∧
    (∀ x ∈ s'.batches, 0 ≤ x.quantity) := by
  refine ⟨le_max_left 0 _, ?_, fun e => rfl, ?_⟩
  · unfold consumeFromBatch
    dsimp only
    split
    · rename_i h
      simpa using h
    · rename_i h
      simp [h]
  · unfold createUsageLog at hrun
    cases hacc : requireKitchenAccess s user kid .MEMBER with
    | error e => rw [hacc] at hrun; exact absurd hrun (by simp)
    | ok mm =>
      rw [hacc] at hrun
      cases hit : s.items.find? (fun i => i.id == itemId && i.kitchenId == kid) with
      | none => rw [hit] at hrun; exact absurd hrun (by simp)
      | some it =>
        rw [hit] at hrun
        rw [if_pos hty] at hrun
        cases hfb : findFifoBatch (s.addUsageLog
            { kitchenId := kid, itemId := itemId, type := ty, quantity := qty,
              date := date }) itemId with
        | none =>
          rw [hfb] at hrun
          have hs' : s' = s.addUsageLog
              { kitchenId := kid, itemId := itemId, type := ty, quantity := qty,
                date := date } := by
            cases hrun; rfl
          subst hs'
          exact hnn
        | some batch =>
          rw [hfb] at hrun
          have hs' : s' = (s.addUsageLog
              { kitchenId := kid, itemId := itemId, type := ty, quantity := qty,
                date := date }).updateBatch batch.id (fun x => consumeFromBatch x qty) := by
            cases hrun; rfl
          subst hs'
          intro x hx
          simp only [Store.updateBatch, Store.addUsageLog, List.mem_map] at hx
          obtain ⟨x₀, hx₀, hxeq⟩ := hx
          by_cases hid : (x₀.id == batch.id) = true
      
      
          · rw [if_pos hid] at hxeq
            subst hxeq
            exact le_max_left 0 _
          · rw [if_neg hid] at hxeq
            subst hxeq
            exact hnn x₀ hx₀

/-! ## Claims C2, C3, C4 — counterexamples against the periodic sweep job -/

/-- Claim C2 is false of the sweep: the periodic job has no usage-based
pass at all, so on the spec's own example (60 units consumed over the
trailing 30 days, 10 on hand — projected depletion 5 ≤ 7 days) a full
sweep cycle creates no SHOPPING reminder (here: no reminder at all).
The usage-prediction logic lives in the `generateSmartReminders`
mutation instead. -/
theorem sweep_job_creates_no_shopping_reminder :
    (runSweep now0 storeC2).reminders = [] ∧
      consumptionPatterns now0 "k1" storeC2 = [("i1", 60)] ∧
      totalActiveQuantity storeC2 "i1" = 10 := by decide

/-- Claim C3 is false: the sweep job's expiry window is 24 hours, not 3
days, so a batch expiring at `now + 2 days` produces no EXPIRY
reminder. -/
theorem expiry_sweep_misses_two_day_batch :
    (processExpiredItems now0 storeC3).reminders = [] ∧
      batchTwoDays.status = .ACTIVE ∧
      batchTwoDays.expiryDate = some ⟨2024, 0, 12, 0⟩ := by decide

/-- Claim C4 is false: the sweep job checks only `totalQuantity <=
threshold` with no positivity requirement, so a fully depleted item
(quantity 0, threshold 5) does get a LOW_STOCK reminder. -/
theorem low_stock_sweep_reminds_depleted_item :
    totalActiveQuantity storeC4 "i1" = 0 ∧
      incompleteItemTupleCount (processLowStockItems now0 storeC4)
        "k1" .LOW_STOCK "i1" = 1 := by decide

/-! ## Scheduled-reminders pass machinery (claims C7, C8) -/

lemma fireReminder_id (r : Reminder) : (fireReminder r).id = r.id := by
  unfold fireReminder
  split
  · rfl
  · split <;> rfl

/-- One row update step of the pass, seen from a single row. -/
def rowStep (row t : Reminder) : Reminder :=
  if row.id == t.id then fireReminder t else row

lemma foldl_updateReminder_eq_map (l : List Reminder) (s : Store) :
    (l.foldl (fun s' r => s'.updateReminder r.id (fun _ => fireReminder r)) s).reminders
      = s.reminders.map (fun row => l.foldl rowStep row) := by
  induction l generalizing s with
  | nil => simp
  | cons t l ih =>
    rw [List.foldl_cons, ih]
    unfold Store.updateReminder
    rw [List.map_map]
    rfl

lemma rowFold_no_match (l : List Reminder) (row : Reminder)
    (h : ∀ t ∈ l, ¬row.id = t.id) : l.foldl rowStep row = row := by
  induction l with
  | nil => rfl
  | cons t l ih =>
    rw [List.foldl_cons]
    have : rowStep row t = row := by
      unfold rowStep
      rw [if_neg (by simpa using h t (List.mem_cons_self t l))]
    rw [this]
    exact ih fun t' ht' => h t' (List.mem_cons_of_mem t ht')

lemma rowFold_single_match (l : List Reminder) (r : Reminder)
    (hmem : r ∈ l) (hnodup : (l.map (fun t => t.id)).Nodup)
    (huniq : ∀ t ∈ l, t.id = r.id → t = r) :
    l.foldl rowStep r = fireReminder r := by
  induction l with
  | nil => cases hmem
  | cons t l ih =>
    rw [List.foldl_cons]
    rw [List.map_cons, List.nodup_cons] at hnodup
    by_cases ht : t = r
    · subst ht
      have hstep : rowStep t t = fireReminder t := by
        unfold rowStep
        rw [if_pos (by simp)]
      rw [hstep]
      apply rowFold_no_match
      intro t' ht' heq
      exact hnodup.1 (by
        rw [fireReminder_id] at heq
        rw [heq]
        exact List.mem_map_of_mem (fun x => x.id) ht')
    · have hid : ¬t.id = r.id := fun h =>
        ht (huniq t (List.mem_cons_self t l) h)
      have hstep : rowStep r t = r := by
        unfold rowStep
        rw [if_neg (by simpa using fun h => hid h.symm)]
      rw [hstep]
      have hmem' : r ∈ l := by
        cases List.mem_cons.1 hmem with
        | inl h => exact absurd h.symm ht
        | inr h => exact h
      exact ih hmem' hnodup.2 fun t' ht' h => huniq t' (List.mem_cons_of_mem t ht') h

/-- With distinct reminder ids, the scheduled pass rewrites exactly the
due rows to their fired versions and leaves the rest untouched. -/
lemma processScheduledReminders_reminders (now : DateJS) (s : Store)
    (hnodup : (s.reminders.map (fun r => r.id)).Nodup) :
    (processScheduledReminders now s).reminders
      = s.reminders.map (fun r => if isDue now r then fireReminder r else r) := by
  unfold processScheduledReminders
  rw [foldl_updateReminder_eq_map]
  apply List.map_congr_left
  intro row hrow
  by_cases hd : isDue now row = true
  · rw [if_pos hd]
    apply rowFold_single_match
    · exact List.mem_filter.2 ⟨hrow, hd⟩
    · exact hnodup.sublist (List.Sublist.map _ (List.filter_sublist _))
    · intro t ht hid
      exact List.inj_on_of_nodup_map hnodup (List.mem_filter.1 ht).1 hrow hid
  · rw [if_neg hd]
    apply rowFold_no_match
    intro t ht heq
    have := List.inj_on_of_nodup_map hnodup hrow (List.mem_filter.1 ht).1 heq
    subst this
    exact hd (List.mem_filter.1 ht).2

lemma calcNext_daily (dt : DateJS) (f : String) (hf : strToLower f = "daily") :
    calculateNextSchedule dt (some f) = some (jsSetDate dt (dt.day + 1)) := by
  have hne : ¬(f = "") := by
    intro h
    subst h
    exact absurd hf (by decide)
  unfold calculateNextSchedule
  dsimp only
  rw [if_neg hne, hf]
  simp

lemma calcNext_weekly (dt : DateJS) (f : String) (hf : strToLower f = "weekly") :
    calculateNextSchedule dt (some f) = some (jsSetDate dt (dt.day + 7)) := by
  have hne : ¬(f = "") := by
    intro h
    subst h
    exact absurd hf (by decide)
  unfold calculateNextSchedule
  dsimp only
  rw [if_neg hne, hf]
  simp

lemma calcNext_monthly (dt : DateJS) (f : String) (hf : strToLower f = "monthly") :
    calculateNextSchedule dt (some f) = some (jsSetMonth dt (dt.month + 1)) := by
  have hne : ¬(f = "") := by
    intro h
    subst h
    exact absurd hf (by decide)
  unfold calculateNextSchedule
  dsimp only
  rw [if_neg hne, hf]
  simp

lemma calcNext_yearly (dt : DateJS) (f : String) (hf : strToLower f = "yearly") :
    calculateNextSchedule dt (some f) = some (jsSetFullYear dt (dt.year + 1)) := by
  have hne : ¬(f = "") := by
    intro h
    subst h
    exact absurd hf (by decide)
  unfold calculateNextSchedule
  dsimp only
  rw [if_neg hne, hf]
  simp

lemma calcNext_unknown (dt : DateJS) (freq : Option String)
    (h : ∀ f, freq = some f →
      strToLower f ≠ "daily" ∧ strToLower f ≠ "weekly" ∧
        strToLower f ≠ "monthly" ∧ strToLower f ≠ "yearly") :
    calculateNextSchedule dt freq = none := by
  cases freq with
  | none => rfl
  | some f =>
    obtain ⟨h1, h2, h3, h4⟩ := h f rfl
    unfold calculateNextSchedule
    dsimp only
    by_cases hne : f = ""
    · rw [if_pos hne]
    · rw [if_neg hne, if_neg h1, if_neg h2, if_neg h3, if_neg h4]

/-! ## Claim C7 — completion and recurrence stepping -/

/-- Claim C7: the scheduled-reminders pass rewrites every due reminder
(and only those): one-shot reminders are marked completed; a recurring
weekly reminder is advanced by exactly 7 days (in particular 2024-01-01
becomes 2024-01-08), daily by 1 day; monthly advances the month index by
one and yearly the year by one, keeping the day-of-month (whenever that
day exists in the target month) and the time of day. -/
theorem scheduled_pass_completion_and_recurrence
    (now : DateJS) (s : Store) (r : Reminder)
    (hnodup : (s.reminders.map (fun x => x.id)).Nodup) :
    ((processScheduledReminders now s).reminders
        = s.reminders.map (fun x => if isDue now x then fireReminder x else x)) ∧
    (r.isRecurring = false → fireReminder r = { r with isCompleted := true }) ∧
    (∀ f, r.isRecurring = true → r.frequency = some f → ValidDate r.scheduledAt →
      ((strToLower f = "weekly" →
        toDays (fireReminder r).scheduledAt = toDays r.scheduledAt + 7 ∧
        (fireReminder r).scheduledAt.tod = r.scheduledAt.tod) ∧
      (strToLower f = "daily" →
        toDays (fireReminder r).scheduledAt = toDays r.scheduledAt + 1 ∧
        (fireReminder r).scheduledAt.tod = r.scheduledAt.tod) ∧
      (strToLower f = "monthly" →
        r.scheduledAt.day ≤ daysInMonth (r.scheduledAt.year + (r.scheduledAt.month + 1) / 12)
            ((r.scheduledAt.month + 1) % 12) →
        (fireReminder r).scheduledAt =
          ⟨r.scheduledAt.year + (r.scheduledAt.month + 1) / 12,
            (r.scheduledAt.month + 1) % 12, r.scheduledAt.day, r.scheduledAt.tod⟩) ∧
      (strToLower f = "yearly" →
        r.scheduledAt.day ≤ daysInMonth (r.scheduledAt.year + 1) r.scheduledAt.month →
        (fireReminder r).scheduledAt =
          ⟨r.scheduledAt.year + 1, r.scheduledAt.month, r.scheduledAt.day,
            r.scheduledAt.tod⟩))) ∧
    calculateNextSchedule ⟨2024, 0, 1, 0⟩ (some "weekly") = some ⟨2024, 0, 8, 0⟩ := by
  refine ⟨processScheduledReminders_reminders now s hnodup, ?_, ?_, by decide⟩
  · intro h
    unfold fireReminder
    rw [h]
    rfl
  · intro f hrec hfreq hv
    have hfire : ∀ dt, calculateNextSchedule r.scheduledAt r.frequency = some dt →
        (fireReminder r).scheduledAt = dt := by
      intro dt hdt
      unfold fireReminder
      rw [hrec]
      simp only [Bool.not_true, Bool.false_eq_true, if_false]
      rw [hdt]
    refine ⟨?_, ?_, ?_, ?_⟩
    · intro hf
      have h1 := hfire _ (by rw [hfreq]; exact calcNext_weekly r.scheduledAt f hf)
      rw [h1]
      exact jsSetDate_addDays r.scheduledAt 7 hv
    · intro hf
      have h1 := hfire _ (by rw [hfreq]; exact calcNext_daily r.scheduledAt f hf)
      rw [h1]
      exact jsSetDate_addDays r.scheduledAt 1 hv
    · intro hf hfit
      have h1 := hfire _ (by rw [hfreq]; exact calcNext_monthly r.scheduledAt f hf)
      rw [h1]
      exact jsSetMonth_fit r.scheduledAt (r.scheduledAt.month + 1) hfit
    · intro hf hfit
      have h1 := hfire _ (by rw [hfreq]; exact calcNext_yearly r.scheduledAt f hf)
      rw [h1]
      exact jsSetFullYear_fit r.scheduledAt (r.scheduledAt.year + 1) hfit

/-- A due recurring weekly reminder used by witnesses. -/
def remWeekly : Reminder :=
  ⟨"r1", "k1", .CUSTOM, ⟨2024, 0, 1, 0⟩, true, some "weekly", false, none, none,
    ⟨2023, 11, 25, 0⟩⟩

def storeC7 : Store := ⟨[hhA], [memA], [kitA], [], [], [], [remWeekly]⟩

/-- Witness for C7: applying the theorem to a concrete one-reminder
store; the weekly reminder moves from 2024-01-01 to 2024-01-08. -/
theorem scheduled_pass_completion_and_recurrence_witness :
    (processScheduledReminders now0 storeC7).reminders
        = storeC7.reminders.map (fun x => if isDue now0 x then fireReminder x else x) ∧
      toDays (fireReminder remWeekly).scheduledAt = toDays remWeekly.scheduledAt + 7 :=
  ⟨(scheduled_pass_completion_and_recurrence now0 storeC7 remWeekly (by decide)).1,
    (((scheduled_pass_completion_and_recurrence now0 storeC7 remWeekly (by decide)).2.2.1
      "weekly" rfl rfl (by decide)).1 (by decide)).1⟩

/-! ## Claim C8 — unknown frequency strings are a silent no-op -/

/-- Claim C8: a recurring reminder whose frequency is missing, empty or
not one of daily/weekly/monthly/yearly (case-insensitively) yields
`calculateNextSchedule = none`, so the scheduled pass leaves the
reminder row — in particular its `scheduledAt` — completely unchanged,
and no error is raised (the model is total). -/
theorem unknown_frequency_is_silent_noop
    (now : DateJS) (s : Store) (r : Reminder)
    (hnodup : (s.reminders.map (fun x => x.id)).Nodup)
    (hmem : r ∈ s.reminders)
    (hrec : r.isRecurring = true)
    (hfreq : ∀ f, r.frequency = some f →
      strToLower f ≠ "daily" ∧ strToLower f ≠ "weekly" ∧
        strToLower f ≠ "monthly" ∧ strToLower f ≠ "yearly") :
    calculateNextSchedule r.scheduledAt r.frequency = none ∧
      fireReminder r = r ∧
      r ∈ (processScheduledReminders now s).reminders := by
  have hcalc := calcNext_unknown r.scheduledAt r.frequency hfreq
  have hfire : fireReminder r = r := by
    unfold fireReminder
    rw [hrec]
    simp only [Bool.not_true, Bool.false_eq_true, if_false]
    rw [hcalc]
  refine ⟨hcalc, hfire, ?_⟩
  rw [processScheduledReminders_reminders now s hnodup]
  have : (if isDue now r then fireReminder r else r) = r := by
    split
    · exact hfire
    · rfl
  exact this ▸ List.mem_map_of_mem _ hmem

/-- A due recurring reminder with an unrecognised frequency string. -/
def remFortnightly : Reminder :=
  ⟨"r1", "k1", .CUSTOM, ⟨2024, 0, 5, 0⟩, true, some "fortnightly", false, none, none,
    ⟨2024, 0, 1, 0⟩⟩

def storeC8 : Store := ⟨[hhA], [memA], [kitA], [], [], [], [remFortnightly]⟩

/-- Witness for C8 at a concrete store. -/
theorem unknown_frequency_is_silent_noop_witness :
    calculateNextSchedule remFortnightly.scheduledAt remFortnightly.frequency = none ∧
      fireReminder remFortnightly = remFortnightly ∧
      remFortnightly ∈ (processScheduledReminders now0 storeC8).reminders :=
  unknown_frequency_is_silent_noop now0 storeC8 remFortnightly (by decide)
    (by decide) rfl
    (fun f h => by
      injection h with h
      subst h
      exact ⟨by decide, by decide, by decide, by decide⟩)

/-! ## Lookup-before-insert preservation (claim C1, amended) -/

lemma hasIncompleteItem_iff (s : Store) (kid : String) (ty : ReminderType) (eid : String) :
    hasIncompleteItemReminder s kid ty eid = true ↔
      0 < incompleteItemTupleCount s kid ty eid := by
  unfold hasIncompleteItemReminder incompleteItemTupleCount
  rw [List.any_eq_true, List.length_pos_iff_exists_mem]
  constructor
  · rintro ⟨r, hr, hp⟩
    exact ⟨r, List.mem_filter.2 ⟨hr, hp⟩⟩
  · rintro ⟨r, hr⟩
    obtain ⟨h1, h2⟩ := List.mem_filter.1 hr
    exact ⟨r, h1, h2⟩

lemma hasIncompleteBatch_iff (s : Store) (kid : String) (ty : ReminderType) (eid : String) :
    hasIncompleteBatchReminder s kid ty eid = true ↔
      0 < incompleteBatchTupleCount s kid ty eid := by
  unfold hasIncompleteBatchReminder incompleteBatchTupleCount
  rw [List.any_eq_true, List.length_pos_iff_exists_mem]
  constructor
  · rintro ⟨r, hr, hp⟩
    exact ⟨r, List.mem_filter.2 ⟨hr, hp⟩⟩
  · rintro ⟨r, hr⟩
    obtain ⟨h1, h2⟩ := List.mem_filter.1 hr
    exact ⟨r, h1, h2⟩

lemma countI_addReminder (s : Store) (r : Reminder) (kid : String) (ty : ReminderType)
    (eid : String) :
    incompleteItemTupleCount (s.addReminder r) kid ty eid
      = incompleteItemTupleCount s kid ty eid +
        (if r.kitchenId == kid && r.type == ty && r.metaItemId == some eid &&
            r.isCompleted == false then 1 else 0) := by
  unfold incompleteItemTupleCount Store.addReminder
  dsimp only
  rw [List.filter_append, List.length_append]
  congr 1
  simp only [List.filter_cons, List.filter_nil]
  split
  · rfl
  · rfl

lemma countB_addReminder (s : Store) (r : Reminder) (kid : String) (ty : ReminderType)
    (eid : String) :
    incompleteBatchTupleCount (s.addReminder r) kid ty eid
      = incompleteBatchTupleCount s kid ty eid +
        (if r.kitchenId == kid && r.type == ty && r.metaBatchId == some eid &&
            r.isCompleted == false then 1 else 0) := by
  unfold incompleteBatchTupleCount Store.addReminder
  dsimp only
  rw [List.filter_append, List.length_append]
  congr 1
  simp only [List.filter_cons, List.filter_nil]
  split
  · rfl
  · rfl

lemma foldl_count_preserved {α : Type} (step : Store → α → Store) (cnt : Store → Nat)
    (hstep : ∀ s x, 0 < cnt s → cnt (step s x) = cnt s) (l : List α) :
    ∀ s, 0 < cnt s → cnt (l.foldl step s) = cnt s := by
  induction l with
  | nil => intro s _; rfl
  | cons x l ih =>
    intro s h
    rw [List.foldl_cons]
    have hx := hstep s x h
    rw [ih (step s x) (by rw [hx]; exact h), hx]

lemma smartLowStockItem_count (now : DateJS) (kid : String) (s : Store)
    (i : InventoryItem) (eid : String)
    (hpos : 0 < incompleteItemTupleCount s kid .LOW_STOCK eid) :
    incompleteItemTupleCount (smartLowStockItem now kid s i) kid .LOW_STOCK eid
      = incompleteItemTupleCount s kid .LOW_STOCK eid := by
  unfold smartLowStockItem
  dsimp only
  split
  · split
    · rfl
    · rename_i hdup
      rw [countI_addReminder]
      have hne : ¬(i.id = eid) := by
        intro h
        subst h
        exact hdup ((hasIncompleteItem_iff s kid .LOW_STOCK i.id).2 hpos)
      have hb : (some i.id == some eid) = false := by
        simp [hne]
      simp [hb]
  · rfl

lemma smartShoppingPattern_count (now : DateJS) (kid : String) (s : Store)
    (pat : String × Rat) (eid : String)
    (hpos : 0 < incompleteItemTupleCount s kid .SHOPPING eid) :
    incompleteItemTupleCount (smartShoppingPattern now kid s pat) kid .SHOPPING eid
      = incompleteItemTupleCount s kid .SHOPPING eid := by
  unfold smartShoppingPattern
  dsimp only
  split
  · cases hfind : s.findItem pat.1 with
    | none => rfl
    | some item =>
      dsimp only
      split
      · split
        · rfl
        · rename_i hdup
          rw [countI_addReminder]
          have hne : ¬(item.id = eid) := by
            intro h
            subst h
            exact hdup ((hasIncompleteItem_iff s kid .SHOPPING item.id).2 hpos)
          have hb : (some item.id == some eid) = false := by
            simp [hne]
          simp [shoppingReminder, hb]
      · rfl
  · rfl

lemma smartExpiryBatch_count (now : DateJS) (kid : String) (s : Store)
    (b : InventoryBatch) (eid : String)
    (hpos : 0 < incompleteBatchTupleCount s kid .EXPIRY eid) :
    incompleteBatchTupleCount (smartExpiryBatch now kid s b) kid .EXPIRY eid
      = incompleteBatchTupleCount s kid .EXPIRY eid := by
  unfold smartExpiryBatch
  split
  · rfl
  · rename_i hdup
    rw [countB_addReminder]
    have hne : ¬(b.id = eid) := by
      intro h
      subst h
      exact hdup ((hasIncompleteBatch_iff s kid .EXPIRY b.id).2 hpos)
    have hb : (some b.id == some eid) = false := by
      simp [hne]
    simp [hb]

/-- Claim C1 (amended): each `generateSmartReminders` pass implements
lookup-before-insert on the (kitchen, type, triggering entity,
incomplete) tuple, so for every tuple that already has an incomplete
reminder, running the pass again creates no further incomplete reminder
for that tuple.  (The periodic sweep job does not have this property;
see its counterexample.) -/
theorem smart_passes_preserve_incomplete_uniqueness
    (now : DateJS) (kid : String) (s : Store) (itemId batchId : String) :
    (0 < incompleteItemTupleCount s kid .LOW_STOCK itemId →
      incompleteItemTupleCount (smartLowStockPass now kid s) kid .LOW_STOCK itemId
        = incompleteItemTupleCount s kid .LOW_STOCK itemId) ∧
    (0 < incompleteItemTupleCount s kid .SHOPPING itemId →
      incompleteItemTupleCount (smartShoppingPass now kid s) kid .SHOPPING itemId
        = incompleteItemTupleCount s kid .SHOPPING itemId) ∧
    (0 < incompleteBatchTupleCount s kid .EXPIRY batchId →
      incompleteBatchTupleCount (smartExpiryPass now kid s) kid .EXPIRY batchId
        = incompleteBatchTupleCount s kid .EXPIRY batchId) := by
  refine ⟨fun h => ?_, fun h => ?_, fun h => ?_⟩
  · exact foldl_count_preserved (smartLowStockItem now kid)
      (fun s' => incompleteItemTupleCount s' kid .LOW_STOCK itemId)
      (fun s' x hx => smartLowStockItem_count now kid s' x itemId hx) _ s h
  · exact foldl_count_preserved (smartShoppingPattern now kid)
      (fun s' => incompleteItemTupleCount s' kid .SHOPPING itemId)
      (fun s' x hx => smartShoppingPattern_count now kid s' x itemId hx) _ s h
  · exact foldl_count_preserved (smartExpiryBatch now kid)
      (fun s' => incompleteBatchTupleCount s' kid .EXPIRY batchId)
      (fun s' x hx => smartExpiryBatch_count now kid s' x batchId hx) _ s h

/-- An already-open LOW_STOCK reminder for item `i1`. -/
def remLowOpen : Reminder :=
  ⟨"r1", "k1", .LOW_STOCK, ⟨2024, 0, 9, 0⟩, false, none, false, some "i1", none,
    ⟨2024, 0, 9, 0⟩⟩

def storeC1W : Store := ⟨[hhA], [memA], [kitA], [itemA], [], [], [remLowOpen]⟩

/-- Witness for the amended C1: with an open LOW_STOCK reminder for the
item already present, the mutation's low-stock pass adds none. -/
theorem smart_passes_preserve_incomplete_uniqueness_witness :
    incompleteItemTupleCount (smartLowStockPass now0 "k1" storeC1W) "k1" .LOW_STOCK "i1"
      = incompleteItemTupleCount storeC1W "k1" .LOW_STOCK "i1" :=
  (smart_passes_preserve_incomplete_uniqueness now0 "k1" storeC1W "i1" "b1").1 (by decide)

/-! ## Witness for claim C9 -/

def batchFive : InventoryBatch := ⟨"b1", "i1", 5, none, .ACTIVE⟩

def storeC9 : Store := ⟨[hhA], [memA], [kitA], [itemA], [batchFive], [], []⟩

/-- The store after logging a CONSUMED usage of 5 units of item `i1`. -/
def storeC9' : Store :=
  (createUsageLog storeC9 (some userA) "k1" "i1" .CONSUMED 5 now0).getD storeC9

/-- Witness for C9: the concrete deduction clamps at zero and marks the
batch USED. -/
theorem usage_log_consumption_clamped_witness :
    0 ≤ (consumeFromBatch batchFive 5).quantity ∧
      ((consumeFromBatch batchFive 5).status = .USED ↔
        (consumeFromBatch batchFive 5).quantity = 0) :=
  ⟨(usage_log_consumption_clamped batchFive 5 .CONSUMED storeC9 storeC9'
      (some userA) "k1" "i1" now0 rfl (by decide) (by decide)).1,
    (usage_log_consumption_clamped batchFive 5 .CONSUMED storeC9 storeC9'
      (some userA) "k1" "i1" now0 rfl (by decide) (by decide)).2.1⟩

/-! ## Counting machinery for the periodic job passes (claims C3, C4, C10) -/

lemma foldl_addReminder_const {α : Type} (R : Reminder) (l : List α) :
    ∀ s : Store, l.foldl (fun s' _ => s'.addReminder R) s
      = { s with reminders := s.reminders ++ List.replicate l.length R } := by
  induction l with
  | nil => intro s; simp
  | cons x l ih =>
    intro s
    rw [List.foldl_cons, ih]
    unfold Store.addReminder
    simp [List.replicate_succ]

lemma countB_reminders_append (s : Store) (l2 : List Reminder) (kid : String)
    (ty : ReminderType) (eid : String) :
    incompleteBatchTupleCount { s with reminders := s.reminders ++ l2 } kid ty eid
      = incompleteBatchTupleCount s kid ty eid
        + (l2.filter (fun r => r.kitchenId == kid && r.type == ty &&
            r.metaBatchId == some eid && r.isCompleted == false)).length := by
  unfold incompleteBatchTupleCount
  dsimp only
  rw [List.filter_append, List.length_append]

lemma countI_reminders_append (s : Store) (l2 : List Reminder) (kid : String)
    (ty : ReminderType) (eid : String) :
    incompleteItemTupleCount { s with reminders := s.reminders ++ l2 } kid ty eid
      = incompleteItemTupleCount s kid ty eid
        + (l2.filter (fun r => r.kitchenId == kid && r.type == ty &&
            r.metaItemId == some eid && r.isCompleted == false)).length := by
  unfold incompleteItemTupleCount
  dsimp only
  rw [List.filter_append, List.length_append]

lemma hasRecent_reminders_append (now : DateJS) (s : Store) (l2 : List Reminder)
    (kid iid : String) :
    hasRecentLowStockReminder now { s with reminders := s.reminders ++ l2 } kid iid
      = (hasRecentLowStockReminder now s kid iid ||
          l2.any (fun r => r.kitchenId == kid && r.type == .LOW_STOCK &&
            r.metaItemId == some iid &&
            decide (toMs now ≤ toMs r.createdAt + 24 * 60 * 60 * 1000))) := by
  unfold hasRecentLowStockReminder
  dsimp only
  rw [List.any_append]

lemma length_filter_replicate {α : Type} (n : Nat) (R : α) (p : α → Bool) :
    ((List.replicate n R).filter p).length = if p R then n else 0 := by
  induction n with
  | zero => simp
  | succ n ih =>
    rw [List.replicate_succ, List.filter_cons]
    by_cases hp : p R = true
    · rw [if_pos hp] at *
      simp [ih, hp]
    · rw [if_neg hp] at *
      simp only [Bool.not_eq_true] at hp
      simp [ih, hp]

lemma any_replicate_false {α : Type} (n : Nat) (R : α) (p : α → Bool) (h : p R = false) :
    (List.replicate n R).any p = false := by
  induction n with
  | zero => rfl
  | succ n ih => rw [List.replicate_succ, List.any_cons, h, ih]; rfl

lemma findItem_congr (s s' : Store) (h : s'.items = s.items) (x : String) :
    s'.findItem x = s.findItem x := by
  unfold Store.findItem
  rw [h]

lemma findKitchen_congr (s s' : Store) (h : s'.kitchens = s.kitchens) (x : String) :
    s'.findKitchen x = s.findKitchen x := by
  unfold Store.findKitchen
  rw [h]

lemma findHousehold_congr (s s' : Store) (h : s'.households = s.households) (x : String) :
    s'.findHousehold x = s.findHousehold x := by
  unfold Store.findHousehold
  rw [h]

lemma membersOf_congr (s s' : Store) (h : s'.memberships = s.memberships) (x : String) :
    s'.membersOf x = s.membersOf x := by
  unfold Store.membersOf
  rw [h]

lemma totalActiveQuantity_congr (s s' : Store) (h : s'.batches = s.batches) (x : String) :
    totalActiveQuantity s' x = totalActiveQuantity s x := by
  unfold totalActiveQuantity
  rw [h]

/-! ### Expiry pass -/

lemma processExpiredBatch_eq_of_resolved (now : DateJS) (s : Store) (b : InventoryBatch)
    (item : InventoryItem) (k : Kitchen) (h : Household)
    (hi : s.findItem b.itemId = some item)
    (hk : s.findKitchen item.kitchenId = some k)
    (hh : s.findHousehold k.householdId = some h) :
    processExpiredBatch now s b
      = { s with reminders := s.reminders ++
          List.replicate (s.membersOf h.id).length (expiryReminder now k.id item.id b.id) } := by
  unfold processExpiredBatch
  rw [hi]
  dsimp only
  rw [hk]
  dsimp only
  rw [hh]
  dsimp only
  rw [foldl_addReminder_const]

lemma processExpiredBatch_shape (now : DateJS) (s : Store) (b : InventoryBatch) :
    (∃ n kid iid, processExpiredBatch now s b
        = { s with reminders := s.reminders ++
            List.replicate n (expiryReminder now kid iid b.id) })
      ∨ processExpiredBatch now s b = s := by
  cases hi : s.findItem b.itemId with
  | none => right; unfold processExpiredBatch; rw [hi]
  | some item =>
    cases hk : s.findKitchen item.kitchenId with
    | none =>
      right
      unfold processExpiredBatch
      rw [hi]
      dsimp only
      rw [hk]
    | some k =>
      cases hh : s.findHousehold k.householdId with
      | none =>
        right
        unfold processExpiredBatch
        rw [hi]
        dsimp only
        rw [hk]
        dsimp only
        rw [hh]
      | some h =>
        left
        exact ⟨(s.membersOf h.id).length, k.id, item.id,
          processExpiredBatch_eq_of_resolved now s b item k h hi hk hh⟩

lemma processExpiredBatch_fields (now : DateJS) (s : Store) (b : InventoryBatch) :
    (processExpiredBatch now s b).items = s.items ∧
    (processExpiredBatch now s b).kitchens = s.kitchens ∧
    (processExpiredBatch now s b).households = s.households ∧
    (processExpiredBatch now s b).memberships = s.memberships ∧
    (processExpiredBatch now s b).batches = s.batches := by
  rcases processExpiredBatch_shape now s b with ⟨n, kid, iid, heq⟩ | heq <;>
    rw [heq] <;> exact ⟨rfl, rfl, rfl, rfl, rfl⟩

lemma processExpiredBatch_countB_other (now : DateJS) (s : Store) (c : InventoryBatch)
    (kid eid : String) (hne : ¬(c.id = eid)) :
    incompleteBatchTupleCount (processExpiredBatch now s c) kid .EXPIRY eid
      = incompleteBatchTupleCount s kid .EXPIRY eid := by
  rcases processExpiredBatch_shape now s c with ⟨n, kid', iid, heq⟩ | heq
  · rw [heq, countB_reminders_append, length_filter_replicate]
    simp [expiryReminder, hne]
  · rw [heq]

lemma processExpiredBatch_countB_self (now : DateJS) (s : Store) (b : InventoryBatch)
    (item : InventoryItem) (k : Kitchen) (h : Household)
    (hi : s.findItem b.itemId = some item)
    (hk : s.findKitchen item.kitchenId = some k)
    (hh : s.findHousehold k.householdId = some h) :
    incompleteBatchTupleCount (processExpiredBatch now s b) k.id .EXPIRY b.id
      = incompleteBatchTupleCount s k.id .EXPIRY b.id + (s.membersOf h.id).length := by
  rw [processExpiredBatch_eq_of_resolved now s b item k h hi hk hh, countB_reminders_append,
    length_filter_replicate]
  simp [expiryReminder]

/-- Folding the expiry step over batches none of which carries the
target batch id neither changes the tuple count nor the non-reminder
store fields. -/
lemma expiryFold_other (now : DateJS) (kid eid : String) :
    ∀ (l : List InventoryBatch) (s : Store), (∀ c ∈ l, ¬(c.id = eid)) →
      incompleteBatchTupleCount (l.foldl (processExpiredBatch now) s) kid .EXPIRY eid
          = incompleteBatchTupleCount s kid .EXPIRY eid ∧
      (l.foldl (processExpiredBatch now) s).items = s.items ∧
      (l.foldl (processExpiredBatch now) s).kitchens = s.kitchens ∧
      (l.foldl (processExpiredBatch now) s).households = s.households ∧
      (l.foldl (processExpiredBatch now) s).memberships = s.memberships ∧
      (l.foldl (processExpiredBatch now) s).batches = s.batches := by
  intro l
  induction l with
  | nil => intro s _; exact ⟨rfl, rfl, rfl, rfl, rfl, rfl⟩
  | cons c l ih =>
    intro s hne
    rw [List.foldl_cons]
    obtain ⟨f1, f2, f3, f4, f5⟩ := processExpiredBatch_fields now s c
    obtain ⟨g0, g1, g2, g3, g4, g5⟩ :=
      ih (processExpiredBatch now s c) (fun x hx => hne x (List.mem_cons_of_mem c hx))
    refine ⟨?_, g1.trans f1, g2.trans f2, g3.trans f3, g4.trans f4, g5.trans f5⟩
    rw [g0, processExpiredBatch_countB_other now s c kid eid
      (hne c (List.mem_cons_self c l))]

/-- Count of incomplete EXPIRY reminders the periodic expiry pass adds
for one batch: one per household member when the batch is in the 24-hour
window, none otherwise. -/
lemma processExpiredItems_count (now : DateJS) (s : Store) (b : InventoryBatch)
    (item : InventoryItem) (k : Kitchen) (h : Household)
    (hmem : b ∈ s.batches)
    (hnodup : (s.batches.map (fun c => c.id)).Nodup)
    (hi : s.findItem b.itemId = some item)
    (hk : s.findKitchen item.kitchenId = some k)
    (hh : s.findHousehold k.householdId = some h) :
    incompleteBatchTupleCount (processExpiredItems now s) k.id .EXPIRY b.id
      = incompleteBatchTupleCount s k.id .EXPIRY b.id
        + (if expiringWithin24h now b then (s.membersOf h.id).length else 0) := by
  unfold processExpiredItems
  have hfnodup : ((s.batches.filter (expiringWithin24h now)).map (fun c => c.id)).Nodup :=
    hnodup.sublist (List.Sublist.map _ (List.filter_sublist _))
  by_cases hpred : expiringWithin24h now b = true
  · have hbf : b ∈ s.batches.filter (expiringWithin24h now) :=
      List.mem_filter.2 ⟨hmem, hpred⟩
    obtain ⟨f1, f2, hsplit⟩ := List.append_of_mem hbf
    rw [hsplit, List.map_append, List.map_cons] at hfnodup
    obtain ⟨hn1, hn2, hdisj⟩ := List.nodup_append.1 hfnodup
    have hbid2 := (List.nodup_cons.1 hn2).1
    have hne1 : ∀ c ∈ f1, ¬(c.id = b.id) := by
      intro c hc heq
      exact hdisj (List.mem_map_of_mem _ hc) (heq ▸ List.mem_cons_self _ _)
    have hne2 : ∀ c ∈ f2, ¬(c.id = b.id) := by
      intro c hc heq
      exact hbid2 (heq ▸ List.mem_map_of_mem _ hc)
    rw [hsplit, List.foldl_append, List.foldl_cons]
    obtain ⟨c1, e1, e2, e3, e4, e5⟩ := expiryFold_other now k.id b.id f1 s hne1
    set s₁ := f1.foldl (processExpiredBatch now) s with hs₁
    have hi₁ : s₁.findItem b.itemId = some item := by rw [findItem_congr s s₁ e1]; exact hi
    have hk₁ : s₁.findKitchen item.kitchenId = some k := by
      rw [findKitchen_congr s s₁ e2]; exact hk
    have hh₁ : s₁.findHousehold k.householdId = some h := by
      rw [findHousehold_congr s s₁ e3]; exact hh
    have hmm : s₁.membersOf h.id = s.membersOf h.id := membersOf_congr s s₁ e4 h.id
    have hself := processExpiredBatch_countB_self now s₁ b item k h hi₁ hk₁ hh₁
    have hpost := (expiryFold_other now k.id b.id f2 (processExpiredBatch now s₁ b) hne2).1
    rw [hpost, hself, c1, hmm, if_pos hpred]
  · have hall : ∀ c ∈ s.batches.filter (expiringWithin24h now), ¬(c.id = b.id) := by
      intro c hc heq
      obtain ⟨hcb, hcp⟩ := List.mem_filter.1 hc
      have : c = b := List.inj_on_of_nodup_map hnodup hcb hmem heq
      subst this
      exact hpred hcp
    rw [(expiryFold_other now k.id b.id _ s hall).1, if_neg hpred]
    omega

/-- Claim C3 (amended): the periodic expiry pass creates EXPIRY
reminders (one per household member) for an ACTIVE batch exactly when
its expiry date lies in the 24-hour window `[now, now + 24h]` — not the
3-day window the original claim states (that window belongs to the
`generateSmartReminders` mutation); so a batch expiring at now + 12
hours triggers reminders and one at now + 2 days does not. -/
theorem expiry_sweep_window_is_24_hours (now : DateJS) (s : Store) (b : InventoryBatch)
    (item : InventoryItem) (k : Kitchen) (h : Household)
    (hmem : b ∈ s.batches)
    (hnodup : (s.batches.map (fun c => c.id)).Nodup)
    (hi : s.findItem b.itemId = some item)
    (hk : s.findKitchen item.kitchenId = some k)
    (hh : s.findHousehold k.householdId = some h) :
    (incompleteBatchTupleCount (processExpiredItems now s) k.id .EXPIRY b.id
      = incompleteBatchTupleCount s k.id .EXPIRY b.id
        + (if expiringWithin24h now b then (s.membersOf h.id).length else 0)) ∧
    (incompleteBatchTupleCount s k.id .EXPIRY b.id = 0 →
      0 < (s.membersOf h.id).length →
      (0 < incompleteBatchTupleCount (processExpiredItems now s) k.id .EXPIRY b.id
        ↔ expiringWithin24h now b = true)) := by
  have hcore := processExpiredItems_count now s b item k h hmem hnodup hi hk hh
  refine ⟨hcore, fun h0 hm => ?_⟩
  rw [hcore, h0]
  by_cases hp : expiringWithin24h now b = true
  · rw [if_pos hp]
    simp [hp, hm]
  · rw [if_neg hp]
    simp [hp]

/-- Witness for the amended C3: the batch expiring in 12 hours yields
one reminder (one household member); the counterexample store with the
2-day batch yields none. -/
theorem expiry_sweep_window_is_24_hours_witness :
    incompleteBatchTupleCount (processExpiredItems now0 storeC1) kitA.id .EXPIRY "b1"
      = incompleteBatchTupleCount storeC1 kitA.id .EXPIRY "b1"
        + (if expiringWithin24h now0 batchSoon then (storeC1.membersOf hhA.id).length else 0) :=
  (expiry_sweep_window_is_24_hours now0 storeC1 batchSoon itemA kitA hhA
    (by decide) (by decide) (by decide) (by decide) (by decide)).1

/-! ### Low-stock pass -/

lemma processLowStockItem_eq_of_resolved (now : DateJS) (s : Store) (i : InventoryItem)
    (k : Kitchen) (h : Household)
    (hk : s.findKitchen i.kitchenId = some k)
    (hh : s.findHousehold k.householdId = some h)
    (hcond : totalActiveQuantity s i.id ≤ effectiveThreshold i.threshold)
    (hrec : hasRecentLowStockReminder now s k.id i.id = false) :
    processLowStockItem now s i
      = { s with reminders := s.reminders ++
          List.replicate (s.membersOf h.id).length (lowStockReminder now k.id i.id) } := by
  unfold processLowStockItem
  rw [if_pos hcond, hk]
  dsimp only
  rw [hh]
  dsimp only
  rw [hrec]
  simp only [Bool.false_eq_true, if_false]
  rw [foldl_addReminder_const]

lemma processLowStockItem_shape (now : DateJS) (s : Store) (i : InventoryItem) :
    (∃ n kid, processLowStockItem now s i
        = { s with reminders := s.reminders ++
            List.replicate n (lowStockReminder now kid i.id) })
      ∨ processLowStockItem now s i = s := by
  unfold processLowStockItem
  dsimp only
  by_cases hcond : totalActiveQuantity s i.id ≤ effectiveThreshold i.threshold
  · rw [if_pos hcond]
    cases hk : s.findKitchen i.kitchenId with
    | none => right; rfl
    | some k =>
      dsimp only
      cases hh : s.findHousehold k.householdId with
      | none => right; rfl
      | some h =>
        dsimp only
        by_cases hrec : hasRecentLowStockReminder now s k.id i.id = true
        · rw [hrec]
          right
          rfl
        · rw [Bool.not_eq_true] at hrec
          rw [hrec]
          simp only [Bool.false_eq_true, if_false]
          rw [foldl_addReminder_const]
          exact Or.inl ⟨(s.membersOf h.id).length, k.id, rfl⟩
  · rw [if_neg hcond]
    right
    rfl

lemma processLowStockItem_fields (now : DateJS) (s : Store) (i : InventoryItem) :
    (processLowStockItem now s i).items = s.items ∧
    (processLowStockItem now s i).kitchens = s.kitchens ∧
    (processLowStockItem now s i).households = s.households ∧
    (processLowStockItem now s i).memberships = s.memberships ∧
    (processLowStockItem now s i).batches = s.batches := by
  rcases processLowStockItem_shape now s i with ⟨n, kid, heq⟩ | heq <;>
    rw [heq] <;> exact ⟨rfl, rfl, rfl, rfl, rfl⟩

lemma processLowStockItem_countI_other (now : DateJS) (s : Store) (j : InventoryItem)
    (kid eid : String) (hne : ¬(j.id = eid)) :
    incompleteItemTupleCount (processLowStockItem now s j) kid .LOW_STOCK eid
      = incompleteItemTupleCount s kid .LOW_STOCK eid := by
  rcases processLowStockItem_shape now s j with ⟨n, kid', heq⟩ | heq
  · rw [heq, countI_reminders_append, length_filter_replicate]
    simp [lowStockReminder, hne]
  · rw [heq]

lemma processLowStockItem_hasRecent_other (now : DateJS) (s : Store) (j : InventoryItem)
    (kid eid : String) (hne : ¬(j.id = eid)) :
    hasRecentLowStockReminder now (processLowStockItem now s j) kid eid
      = hasRecentLowStockReminder now s kid eid := by
  rcases processLowStockItem_shape now s j with ⟨n, kid', heq⟩ | heq
  · rw [heq, hasRecent_reminders_append, any_replicate_false]
    · rw [Bool.or_false]
    · simp [lowStockReminder, hne]
  · rw [heq]

lemma processLowStockItem_countI_self (now : DateJS) (s : Store) (i : InventoryItem)
    (k : Kitchen) (h : Household)
    (hk : s.findKitchen i.kitchenId = some k)
    (hh : s.findHousehold k.householdId = some h)
    (hrec : hasRecentLowStockReminder now s k.id i.id = false) :
    incompleteItemTupleCount (processLowStockItem now s i) k.id .LOW_STOCK i.id
      = incompleteItemTupleCount s k.id .LOW_STOCK i.id
        + (if totalActiveQuantity s i.id ≤ effectiveThreshold i.threshold
            then (s.membersOf h.id).length else 0) := by
  by_cases hcond : totalActiveQuantity s i.id ≤ effectiveThreshold i.threshold
  · rw [processLowStockItem_eq_of_resolved now s i k h hk hh hcond hrec,
      countI_reminders_append, length_filter_replicate, if_pos hcond]
    simp [lowStockReminder]
  · unfold processLowStockItem
    dsimp only
    rw [if_neg hcond, if_neg hcond]
    omega

/-- Folding the low-stock step over items none of which carries the
target item id changes neither the tuple count, the recency lookup for
the target item, nor the non-reminder store fields. -/
lemma lowStockFold_other (now : DateJS) (kid eid : String) :
    ∀ (l : List InventoryItem) (s : Store), (∀ j ∈ l, ¬(j.id = eid)) →
      incompleteItemTupleCount (l.foldl (processLowStockItem now) s) kid .LOW_STOCK eid
          = incompleteItemTupleCount s kid .LOW_STOCK eid ∧
      hasRecentLowStockReminder now (l.foldl (processLowStockItem now) s) kid eid
          = hasRecentLowStockReminder now s kid eid ∧
      (l.foldl (processLowStockItem now) s).items = s.items ∧
      (l.foldl (processLowStockItem now) s).kitchens = s.kitchens ∧
      (l.foldl (processLowStockItem now) s).households = s.households ∧
      (l.foldl (processLowStockItem now) s).memberships = s.memberships ∧
      (l.foldl (processLowStockItem now) s).batches = s.batches := by
  intro l
  induction l with
  | nil => intro s _; exact ⟨rfl, rfl, rfl, rfl, rfl, rfl, rfl⟩
  | cons j l ih =>
    intro s hne
    rw [List.foldl_cons]
    have hj := hne j (List.mem_cons_self j l)
    obtain ⟨f1, f2, f3, f4, f5⟩ := processLowStockItem_fields now s j
    obtain ⟨g0, gr, g1, g2, g3, g4, g5⟩ :=
      ih (processLowStockItem now s j) (fun x hx => hne x (List.mem_cons_of_mem j hx))
    refine ⟨?_, ?_, g1.trans f1, g2.trans f2, g3.trans f3, g4.trans f4, g5.trans f5⟩
    · rw [g0, processLowStockItem_countI_other now s j kid eid hj]
    · rw [gr, processLowStockItem_hasRecent_other now s j kid eid hj]

/-- Count of incomplete LOW_STOCK reminders the periodic low-stock pass
adds for one item (given no reminder for it in the last 24 hours): one
per household member when the active total is at or below the effective
threshold, none otherwise. -/
lemma processLowStockItems_count (now : DateJS) (s : Store) (i : InventoryItem)
    (k : Kitchen) (h : Household)
    (hmem : i ∈ s.items)
    (hnodup : (s.items.map (fun j => j.id)).Nodup)
    (hk : s.findKitchen i.kitchenId = some k)
    (hh : s.findHousehold k.householdId = some h)
    (hrec : hasRecentLowStockReminder now s k.id i.id = false) :
    incompleteItemTupleCount (processLowStockItems now s) k.id .LOW_STOCK i.id
      = incompleteItemTupleCount s k.id .LOW_STOCK i.id
        + (if totalActiveQuantity s i.id ≤ effectiveThreshold i.threshold
            then (s.membersOf h.id).length else 0) := by
  unfold processLowStockItems
  obtain ⟨f1, f2, hsplit⟩ := List.append_of_mem hmem
  have hfnodup := hnodup
  rw [hsplit, List.map_append, List.map_cons] at hfnodup
  obtain ⟨hn1, hn2, hdisj⟩ := List.nodup_append.1 hfnodup
  have hbid2 := (List.nodup_cons.1 hn2).1
  have hne1 : ∀ j ∈ f1, ¬(j.id = i.id) := by
    intro j hj heq
    exact hdisj (List.mem_map_of_mem _ hj) (heq ▸ List.mem_cons_self _ _)
  have hne2 : ∀ j ∈ f2, ¬(j.id = i.id) := by
    intro j hj heq
    exact hbid2 (heq ▸ List.mem_map_of_mem _ hj)
  rw [hsplit, List.foldl_append, List.foldl_cons]
  obtain ⟨c1, cr, e1, e2, e3, e4, e5⟩ := lowStockFold_other now k.id i.id f1 s hne1
  set s₁ := f1.foldl (processLowStockItem now) s with hs₁
  have hk₁ : s₁.findKitchen i.kitchenId = some k := by
    rw [findKitchen_congr s s₁ e2]; exact hk
  have hh₁ : s₁.findHousehold k.householdId = some h := by
    rw [findHousehold_congr s s₁ e3]; exact hh
  have hrec₁ : hasRecentLowStockReminder now s₁ k.id i.id = false := by rw [cr]; exact hrec
  have hself := processLowStockItem_countI_self now s₁ i k h hk₁ hh₁ hrec₁
  have hpost := (lowStockFold_other now k.id i.id f2 (processLowStockItem now s₁ i) hne2).1
  rw [hpost, hself, c1, membersOf_congr s s₁ e4, totalActiveQuantity_congr s s₁ e5]

/-- Claim C4 (amended): the periodic low-stock pass creates LOW_STOCK
reminders (one per household member, absent a reminder for the item in
the last 24 hours) exactly when Q ≤ T', where T' is the item's threshold
with null and 0 replaced by 1 (`item.threshold || 1`); there is no
`Q > 0` lower bound, so a fully depleted item does get a LOW_STOCK
reminder.  (The `0 < Q ≤ T` rule with `threshold || 0` belongs to the
`generateSmartReminders` mutation.) -/
theorem low_stock_sweep_condition (now : DateJS) (s : Store) (i : InventoryItem)
    (k : Kitchen) (h : Household)
    (hmem : i ∈ s.items)
    (hnodup : (s.items.map (fun j => j.id)).Nodup)
    (hk : s.findKitchen i.kitchenId = some k)
    (hh : s.findHousehold k.householdId = some h)
    (hrec : hasRecentLowStockReminder now s k.id i.id = false) :
    (incompleteItemTupleCount (processLowStockItems now s) k.id .LOW_STOCK i.id
      = incompleteItemTupleCount s k.id .LOW_STOCK i.id
        + (if totalActiveQuantity s i.id ≤ effectiveThreshold i.threshold
            then (s.membersOf h.id).length else 0)) ∧
    (incompleteItemTupleCount s k.id .LOW_STOCK i.id = 0 →
      0 < (s.membersOf h.id).length →
      (0 < incompleteItemTupleCount (processLowStockItems now s) k.id .LOW_STOCK i.id
        ↔ totalActiveQuantity s i.id ≤ effectiveThreshold i.threshold)) := by
  have hcore := processLowStockItems_count now s i k h hmem hnodup hk hh hrec
  refine ⟨hcore, fun h0 hm => ?_⟩
  rw [hcore, h0]
  by_cases hp : totalActiveQuantity s i.id ≤ effectiveThreshold i.threshold
  · rw [if_pos hp]
    simp [hp, hm]
  · rw [if_neg hp]
    simp [hp]

/-- Witness for the amended C4: the depleted item (Q = 0, threshold 5)
receives one reminder. -/
theorem low_stock_sweep_condition_witness :
    incompleteItemTupleCount (processLowStockItems now0 storeC4) kitA.id .LOW_STOCK "i1"
      = incompleteItemTupleCount storeC4 kitA.id .LOW_STOCK "i1"
        + (if totalActiveQuantity storeC4 "i1" ≤ effectiveThreshold itemA.threshold
            then (storeC4.membersOf hhA.id).length else 0) :=
  (low_stock_sweep_condition now0 storeC4 itemA kitA hhA
    (by decide) (by decide) (by decide) (by decide) (by decide)).1

/-! ## Claim C10 — zero / missing thresholds default to 1 -/

/-- An item with no restock threshold set. -/
def itemNoThr : InventoryItem := ⟨"i1", "k1", "Salt", none⟩

def storeC10 : Store := ⟨[hhA], [memA], [kitA], [itemNoThr], [], [], []⟩

/-- Claim C10: `item.threshold || 1` turns an unset (null) or zero
threshold into 1, so for such an item the low-stock pass creates
LOW_STOCK reminders exactly when its total active quantity is at most 1
(given household members exist and no reminder for it was created in the
last 24 hours); in particular setting a threshold of 0 cannot disable
low-stock reminders. -/
theorem zero_threshold_defaults_to_one (now : DateJS) (s : Store) (i : InventoryItem)
    (k : Kitchen) (h : Household)
    (hthr : i.threshold = none ∨ i.threshold = some 0)
    (hmem : i ∈ s.items)
    (hnodup : (s.items.map (fun j => j.id)).Nodup)
    (hk : s.findKitchen i.kitchenId = some k)
    (hh : s.findHousehold k.householdId = some h)
    (hrec : hasRecentLowStockReminder now s k.id i.id = false) :
    effectiveThreshold i.threshold = 1 ∧
    incompleteItemTupleCount (processLowStockItems now s) k.id .LOW_STOCK i.id
      = incompleteItemTupleCount s k.id .LOW_STOCK i.id
        + (if totalActiveQuantity s i.id ≤ 1 then (s.membersOf h.id).length else 0) := by
  have hefft : effectiveThreshold i.threshold = 1 := by
    rcases hthr with h1 | h1 <;> rw [h1] <;> rfl
  refine ⟨hefft, ?_⟩
  have hcore := processLowStockItems_count now s i k h hmem hnodup hk hh hrec
  rw [hefft] at hcore
  exact hcore

/-- Witness for C10: the unset-threshold item with zero stock receives a
reminder under the substituted threshold 1. -/
theorem zero_threshold_defaults_to_one_witness :
    effectiveThreshold itemNoThr.threshold = 1 ∧
      incompleteItemTupleCount (processLowStockItems now0 storeC10) kitA.id .LOW_STOCK "i1"
        = incompleteItemTupleCount storeC10 kitA.id .LOW_STOCK "i1"
          + (if totalActiveQuantity storeC10 "i1" ≤ 1
              then (storeC10.membersOf hhA.id).length else 0) :=
  zero_threshold_defaults_to_one now0 storeC10 itemNoThr kitA hhA (Or.inl rfl)
    (by decide) (by decide) (by decide) (by decide) (by decide)

/-! ## Consumption-pattern accounting (claim C2, amended) -/

/-- Total quantity of CONSUMED/COOKED usage logs for one item of the
kitchen inside the trailing 30-day window — the value accumulated in
`consumptionPatterns[itemId].totalUsed`. -/
def consumedTotal (now : DateJS) (kid : String) (s : Store) (itemId : String) : Rat :=
  (((s.usageLogs.filter (fun l =>
      l.kitchenId == kid && toMs now ≤ toMs l.date + 30 * 24 * 60 * 60 * 1000)).filter
        (fun l => (l.type == .CONSUMED || l.type == .COOKED) && l.itemId == itemId)).map
    (fun l => l.quantity)).sum

/-- Value stored for key `k` in the pattern association list (0 when the
key is absent, as in `consumptionPatterns[itemId] ?? initial 0`). -/
def findVal (acc : List (String × Rat)) (k : String) : Rat :=
  match acc.find? (fun p => p.1 == k) with
  | some p => p.2
  | none => 0

lemma findVal_bump_self (acc : List (String × Rat)) (k : String) (q : Rat) :
    findVal (bumpPattern acc k q) k = findVal acc k + q := by
  induction acc with
  | nil => simp [bumpPattern, findVal, List.find?]
  | cons p rest ih =>
    obtain ⟨k', v⟩ := p
    unfold bumpPattern
    by_cases hk : k' = k
    · subst hk
      simp [findVal, List.find?]
    · rw [if_neg hk]
      have hbeq : (k' == k) = false := by simp [hk]
      simp only [findVal, List.find?, hbeq] at *
      exact ih

lemma findVal_bump_other (acc : List (String × Rat)) (k' : String) (q : Rat) (k : String)
    (hne : ¬(k' = k)) :
    findVal (bumpPattern acc k' q) k = findVal acc k := by
  induction acc with
  | nil =>
    have hbeq : (k' == k) = false := by simp [hne]
    simp [bumpPattern, findVal, List.find?, hbeq]
  | cons p rest ih =>
    obtain ⟨k₀, v⟩ := p
    unfold bumpPattern
    by_cases hk : k₀ = k'
    · subst hk
      have hbeq : (k₀ == k) = false := by simp [hne]
      simp [findVal, List.find?, hbeq]
    · rw [if_neg hk]
      by_cases hk0 : k₀ = k
      · subst hk0
        simp [findVal, List.find?]
      · have hbeq : (k₀ == k) = false := by simp [hk0]
        simp only [findVal, List.find?, hbeq] at *
        exact ih

/-- Keys of the pattern list after an upsert. -/
lemma keys_bump (acc : List (String × Rat)) (k : String) (q : Rat) :
    (bumpPattern acc k q).map (fun p => p.1)
      = if k ∈ acc.map (fun p => p.1) then acc.map (fun p => p.1)
        else acc.map (fun p => p.1) ++ [k] := by
  induction acc with
  | nil => simp [bumpPattern]
  | cons p rest ih =>
    obtain ⟨k₀, v⟩ := p
    unfold bumpPattern
    by_cases hk : k₀ = k
    · subst hk
      simp
    · rw [if_neg hk]
      have hiff : (k ∈ (⟨k₀, v⟩ :: rest).map (fun p => p.1)) ↔
          (k ∈ rest.map (fun p => p.1)) := by
        rw [List.map_cons, List.mem_cons]
        constructor
        · rintro (h | h)
          · exact absurd h.symm hk
          · exact h
        · exact Or.inr
      by_cases hmem : k ∈ rest.map (fun p => p.1)
      · rw [List.map_cons, ih, if_pos hmem, if_pos (hiff.2 hmem)]
        rfl
      · rw [List.map_cons, ih, if_neg hmem, if_neg (fun hh => hmem (hiff.1 hh))]
        rfl

lemma nodup_keys_bump (acc : List (String × Rat)) (k : String) (q : Rat)
    (h : (acc.map (fun p => p.1)).Nodup) :
    ((bumpPattern acc k q).map (fun p => p.1)).Nodup := by
  rw [keys_bump]
  by_cases hmem : k ∈ acc.map (fun p => p.1)
  · rw [if_pos hmem]
    exact h
  · rw [if_neg hmem]
    simp [List.nodup_append, h, hmem]

lemma nodup_keys_patterns (now : DateJS) (kid : String) (s : Store) :
    ((consumptionPatterns now kid s).map (fun p => p.1)).Nodup := by
  unfold consumptionPatterns
  generalize (s.usageLogs.filter (fun l =>
    l.kitchenId == kid && toMs now ≤ toMs l.date + 30 * 24 * 60 * 60 * 1000)) = logs
  have : ∀ (acc : List (String × Rat)), (acc.map (fun p => p.1)).Nodup →
      ((logs.foldl (fun acc l =>
        if l.type == .CONSUMED || l.type == .COOKED then bumpPattern acc l.itemId l.quantity
        else acc) acc).map (fun p => p.1)).Nodup := by
    induction logs with
    | nil => intro acc h; exact h
    | cons l logs ih =>
      intro acc h
      rw [List.foldl_cons]
      by_cases hty : (l.type == UsageLogType.CONSUMED || l.type == UsageLogType.COOKED) = true
      · rw [if_pos hty]
        exact ih _ (nodup_keys_bump acc l.itemId l.quantity h)
      · rw [if_neg hty]
        exact ih _ h
  exact this [] (by simp)

lemma findVal_fold (k : String) (logs : List UsageLog) :
    ∀ acc : List (String × Rat),
      findVal (logs.foldl (fun acc l =>
        if l.type == .CONSUMED || l.type == .COOKED then bumpPattern acc l.itemId l.quantity
        else acc) acc) k
      = findVal acc k
        + ((logs.filter (fun l =>
            (l.type == .CONSUMED || l.type == .COOKED) && l.itemId == k)).map
          (fun l => l.quantity)).sum := by
  induction logs with
  | nil => intro acc; simp
  | cons l logs ih =>
    intro acc
    rw [List.foldl_cons, List.filter_cons]
    by_cases hty : (l.type == UsageLogType.CONSUMED || l.type == UsageLogType.COOKED) = true
    · rw [if_pos hty]
      by_cases hid : l.itemId = k
      · have hcond : ((l.type == UsageLogType.CONSUMED || l.type == UsageLogType.COOKED) &&
            l.itemId == k) = true := by
          simp [hty, hid]
        rw [if_pos hcond, ih, List.map_cons, List.sum_cons]
        subst hid
        rw [findVal_bump_self]
        ring
      · have hcond : ((l.type == UsageLogType.CONSUMED || l.type == UsageLogType.COOKED) &&
            l.itemId == k) = false := by
          simp [hid]
        rw [if_neg (by rw [hcond]; exact Bool.false_ne_true), ih,
          findVal_bump_other acc l.itemId l.quantity k hid]
    · rw [if_neg hty]
      have hcond : ((l.type == UsageLogType.CONSUMED || l.type == UsageLogType.COOKED) &&
          l.itemId == k) = false := by
        simp only [Bool.not_eq_true] at hty
        simp [hty]
      rw [if_neg (by rw [hcond]; exact Bool.false_ne_true), ih]

/-- The pattern list stores exactly the windowed CONSUMED/COOKED total
for every item. -/
lemma findVal_patterns (now : DateJS) (kid : String) (s : Store) (k : String) :
    findVal (consumptionPatterns now kid s) k = consumedTotal now kid s k := by
  unfold consumptionPatterns consumedTotal
  rw [findVal_fold]
  simp [findVal, List.find?]

lemma findVal_of_mem_nodup (acc : List (String × Rat)) (k : String) (v : Rat)
    (hnd : (acc.map (fun p => p.1)).Nodup) (hmem : (k, v) ∈ acc) :
    findVal acc k = v := by
  induction acc with
  | nil => cases hmem
  | cons p rest ih =>
    obtain ⟨k₀, v₀⟩ := p
    rw [List.map_cons, List.nodup_cons] at hnd
    cases List.mem_cons.1 hmem with
    | inl h =>
      injection h with h1 h2
      subst h1; subst h2
      simp [findVal, List.find?]
    | inr h =>
      by_cases hk : k₀ = k
      · subst hk
        exact absurd (List.mem_map_of_mem (fun p => p.1) h) hnd.1
      · have hbeq : (k₀ == k) = false := by simp [hk]
        simp only [findVal, List.find?, hbeq]
        exact ih hnd.2 h

lemma hasIncompleteItem_append (s : Store) (l2 : List Reminder) (kid : String)
    (ty : ReminderType) (eid : String) :
    hasIncompleteItemReminder { s with reminders := s.reminders ++ l2 } kid ty eid
      = (hasIncompleteItemReminder s kid ty eid ||
          l2.any (fun r => r.kitchenId == kid && r.type == ty && r.metaItemId == some eid &&
            r.isCompleted == false)) := by
  unfold hasIncompleteItemReminder
  dsimp only
  rw [List.any_append]

lemma smartShoppingPattern_shape (now : DateJS) (kid : String) (s : Store)
    (pat : String × Rat) :
    smartShoppingPattern now kid s pat = s ∨
      smartShoppingPattern now kid s pat = s.addReminder (shoppingReminder now kid pat.1) := by
  unfold smartShoppingPattern
  dsimp only
  by_cases hr : pat.2 / 30 > 0
  · rw [if_pos hr]
    cases hfind : s.findItem pat.1 with
    | none => left; rfl
    | some item =>
      dsimp only
      have hid : item.id = pat.1 := by
        have := List.find?_some hfind
        simpa using this
      split
      · split
        · left; rfl
        · right
          rw [hid]
      · left; rfl
  · rw [if_neg hr]
    left
    rfl

lemma smartShoppingPattern_other (now : DateJS) (kid : String) (s : Store)
    (pat : String × Rat) (eid : String) (hne : ¬(pat.1 = eid)) :
    incompleteItemTupleCount (smartShoppingPattern now kid s pat) kid .SHOPPING eid
        = incompleteItemTupleCount s kid .SHOPPING eid ∧
    hasIncompleteItemReminder (smartShoppingPattern now kid s pat) kid .SHOPPING eid
        = hasIncompleteItemReminder s kid .SHOPPING eid ∧
    (smartShoppingPattern now kid s pat).items = s.items ∧
    (smartShoppingPattern now kid s pat).batches = s.batches := by
  rcases smartShoppingPattern_shape now kid s pat with heq | heq <;> rw [heq]
  · exact ⟨rfl, rfl, rfl, rfl⟩
  · refine ⟨?_, ?_, rfl, rfl⟩
    · rw [countI_addReminder]
      simp [shoppingReminder, hne]
    · have : Store.addReminder s (shoppingReminder now kid pat.1)
          = { s with reminders := s.reminders ++ [shoppingReminder now kid pat.1] } := rfl
      rw [this, hasIncompleteItem_append]
      simp [shoppingReminder, hne]

lemma shoppingFold_other (now : DateJS) (kid eid : String) :
    ∀ (l : List (String × Rat)) (s : Store), (∀ p ∈ l, ¬(p.1 = eid)) →
      incompleteItemTupleCount (l.foldl (smartShoppingPattern now kid) s) kid .SHOPPING eid
          = incompleteItemTupleCount s kid .SHOPPING eid ∧
      hasIncompleteItemReminder (l.foldl (smartShoppingPattern now kid) s) kid .SHOPPING eid
          = hasIncompleteItemReminder s kid .SHOPPING eid ∧
      (l.foldl (smartShoppingPattern now kid) s).items = s.items ∧
      (l.foldl (smartShoppingPattern now kid) s).batches = s.batches := by
  intro l
  induction l with
  | nil => intro s _; exact ⟨rfl, rfl, rfl, rfl⟩
  | cons p l ih =>
    intro s hne
    rw [List.foldl_cons]
    obtain ⟨f0, fr, f1, f2⟩ :=
      smartShoppingPattern_other now kid s p eid (hne p (List.mem_cons_self p l))
    obtain ⟨g0, gr, g1, g2⟩ :=
      ih (smartShoppingPattern now kid s p) (fun x hx => hne x (List.mem_cons_of_mem p hx))
    exact ⟨g0.trans f0, gr.trans fr, g1.trans f1, g2.trans f2⟩

lemma smartShoppingPattern_self (now : DateJS) (kid : String) (s : Store)
    (i : InventoryItem) (v : Rat)
    (hfind : s.findItem i.id = some i)
    (hnone : hasIncompleteItemReminder s kid .SHOPPING i.id = false)
    (hcount0 : incompleteItemTupleCount s kid .SHOPPING i.id = 0) :
    incompleteItemTupleCount (smartShoppingPattern now kid s (i.id, v)) kid .SHOPPING i.id
      = (if 0 < v / 30 ∧ 0 < ⌊totalActiveQuantity s i.id / (v / 30)⌋ ∧
            ⌊totalActiveQuantity s i.id / (v / 30)⌋ ≤ 7 then 1 else 0) := by
  unfold smartShoppingPattern
  dsimp only
  by_cases hr : v / 30 > 0
  · rw [if_pos hr, hfind]
    dsimp only
    by_cases h7 : ⌊totalActiveQuantity s i.id / (v / 30)⌋ ≤ 7 <;>
      by_cases h0 : ⌊totalActiveQuantity s i.id / (v / 30)⌋ > 0
    · rw [if_pos (by simp [h7, h0])]
      rw [hnone]
      simp only [Bool.false_eq_true, if_false]
      have : Store.addReminder s (shoppingReminder now kid i.id)
          = { s with reminders := s.reminders ++ [shoppingReminder now kid i.id] } := rfl
      rw [countI_addReminder, hcount0, if_pos (by simp [shoppingReminder]),
        if_pos ⟨hr, h0, h7⟩]
    · rw [if_neg (by simp [h0]), hcount0, if_neg (by tauto)]
    · rw [if_neg (by simp [h7]), hcount0, if_neg (by tauto)]
    · rw [if_neg (by simp [h7]), hcount0, if_neg (by tauto)]
  · rw [if_neg hr, hcount0, if_neg (by tauto)]

/-- Claim C2 (amended): it is the `generateSmartReminders` mutation —
not the periodic sweep — that creates SHOPPING reminders, its rate `r`
counts only CONSUMED and COOKED logs of the kitchen over the trailing
30-day window divided by 30, and a reminder is created exactly when
`r > 0` and `0 < floor(Q / r) ≤ 7`; so 10 units on hand at 2 units/day
(floor = 5) yields a reminder and 20 units (floor = 10) does not, but an
item already past depletion (`floor(Q / r) = 0`) gets none. -/
theorem smart_shopping_reminder_iff (now : DateJS) (kid : String) (s : Store)
    (i : InventoryItem)
    (hfind : s.findItem i.id = some i)
    (hnone : hasIncompleteItemReminder s kid .SHOPPING i.id = false) :
    incompleteItemTupleCount (smartShoppingPass now kid s) kid .SHOPPING i.id
      = (if 0 < consumedTotal now kid s i.id / 30 ∧
            0 < ⌊totalActiveQuantity s i.id / (consumedTotal now kid s i.id / 30)⌋ ∧
            ⌊totalActiveQuantity s i.id / (consumedTotal now kid s i.id / 30)⌋ ≤ 7
          then 1 else 0) := by
  have hcount0 : incompleteItemTupleCount s kid .SHOPPING i.id = 0 := by
    by_contra h
    have hp := (hasIncompleteItem_iff s kid .SHOPPING i.id).2 (Nat.pos_of_ne_zero h)
    rw [hnone] at hp
    exact Bool.false_ne_true hp
  have hnd := nodup_keys_patterns now kid s
  unfold smartShoppingPass
  by_cases hmemk : i.id ∈ (consumptionPatterns now kid s).map (fun p => p.1)
  · obtain ⟨pv, hpv, hk⟩ := List.mem_map.1 hmemk
    obtain ⟨k, v⟩ := pv
    dsimp only at hk
    subst hk
    have hv : v = consumedTotal now kid s i.id := by
      rw [← findVal_patterns]
      exact (findVal_of_mem_nodup _ i.id v hnd hpv).symm
    obtain ⟨p1, p2, hsplit⟩ := List.append_of_mem hpv
    have hfnodup := hnd
    rw [hsplit, List.map_append, List.map_cons] at hfnodup
    obtain ⟨hn1, hn2, hdisj⟩ := List.nodup_append.1 hfnodup
    have hbid2 := (List.nodup_cons.1 hn2).1
    have hne1 : ∀ p ∈ p1, ¬(p.1 = i.id) := by
      intro p hp heq
      have hm : p.1 ∈ p1.map (fun p => p.1) := List.mem_map_of_mem _ hp
      rw [heq] at hm
      exact hdisj hm (List.mem_cons_self _ _)
    have hne2 : ∀ p ∈ p2, ¬(p.1 = i.id) := by
      intro p hp heq
      have hm : p.1 ∈ p2.map (fun p => p.1) := List.mem_map_of_mem _ hp
      rw [heq] at hm
      exact hbid2 hm
    rw [hsplit, List.foldl_append, List.foldl_cons]
    obtain ⟨c1, cr, e1, e2⟩ := shoppingFold_other now kid i.id p1 s hne1
    set s₁ := p1.foldl (smartShoppingPattern now kid) s with hs₁
    have hfind₁ : s₁.findItem i.id = some i := by
      rw [findItem_congr s s₁ e1]
      exact hfind
    have hnone₁ : hasIncompleteItemReminder s₁ kid .SHOPPING i.id = false := by
      rw [cr]
      exact hnone
    have hcount₁ : incompleteItemTupleCount s₁ kid .SHOPPING i.id = 0 := by
      rw [c1]
      exact hcount0
    have hmid := smartShoppingPattern_self now kid s₁ i v hfind₁ hnone₁ hcount₁
    rw [totalActiveQuantity_congr s s₁ e2 i.id] at hmid
    have hpost := (shoppingFold_other now kid i.id p2
      (smartShoppingPattern now kid s₁ (i.id, v)) hne2).1
    rw [hpost, hmid, hv]
  · have hall : ∀ p ∈ consumptionPatterns now kid s, ¬(p.1 = i.id) := by
      intro p hp heq
      exact hmemk (heq ▸ List.mem_map_of_mem _ hp)
    rw [(shoppingFold_other now kid i.id _ s hall).1, hcount0]
    have hzero : consumedTotal now kid s i.id = 0 := by
      rw [← findVal_patterns]
      unfold findVal
      rw [List.find?_eq_none.2]
      intro p hp
      simp only [beq_iff_eq]
      exact hall p hp
    rw [hzero]
    norm_num

/-- Twenty units on hand (the spec's no-reminder variant). -/
def batchTwenty : InventoryBatch := ⟨"b1", "i1", 20, none, .ACTIVE⟩

def storeC2b : Store := ⟨[hhA], [memA], [kitA], [itemA], [batchTwenty], [logSixty], []⟩

/-- Witness for the amended C2 on the spec's example: 60 units consumed
over 30 days and 10 on hand (floor(10/2) = 5 ≤ 7) yields exactly one
SHOPPING reminder from the mutation's pass; with 20 on hand
(floor(20/2) = 10 > 7) it yields none. -/
theorem smart_shopping_reminder_iff_witness :
    (incompleteItemTupleCount (smartShoppingPass now0 "k1" storeC2) "k1" .SHOPPING "i1"
      = (if 0 < consumedTotal now0 "k1" storeC2 "i1" / 30 ∧
            0 < ⌊totalActiveQuantity storeC2 "i1" /
                  (consumedTotal now0 "k1" storeC2 "i1" / 30)⌋ ∧
            ⌊totalActiveQuantity storeC2 "i1" /
                (consumedTotal now0 "k1" storeC2 "i1" / 30)⌋ ≤ 7
          then 1 else 0)) ∧
    incompleteItemTupleCount (smartShoppingPass now0 "k1" storeC2) "k1" .SHOPPING "i1" = 1 ∧
    incompleteItemTupleCount (smartShoppingPass now0 "k1" storeC2b) "k1" .SHOPPING "i1" = 0 :=
  ⟨smart_shopping_reminder_iff now0 "k1" storeC2 itemA (by decide) (by decide),
    by decide, by decide⟩
